import Mathlib

/-!
# bowlbot: roster, scheduling and reply-correlation

A shallow embedding of `store.go`, `bowlbot.go` and `setupchat.go`.

* Go `int` is 64 bit: arithmetic on it is `Int` arithmetic followed by `wrapInt`.
* A `time.Time` is the number of nanoseconds since the Unix epoch; the local
  zone `time.Local` is a `Zone`: the offset in seconds east of UTC in force at
  each instant, so that it may change between two instants (daylight saving).
* A handler reads the clock once: `now` is an argument (`nextSlot` calls
  `time.Now()` twice; both calls are the one instant `now`).
* A Go `map[int]int` is an association list; a key occurs at most once in
  every list the operations build, and lookups take the first occurrence.
  The order of a `range` over a map is the order of the list.
* The database is the bucket of events, reads and writes of which succeed;
  `save` of a group is the returned group record.
* `strconv.Atoi`, `strings.TrimSpace`, `strings.TrimPrefix` and `Time.Weekday`
  are modelled after the Go library; strings are sequences of characters.
-/

namespace Bowlbot

/-! ## Go primitives -/

/-- Two's complement reduction of an integer to Go's 64 bit `int`. -/
def wrapInt (x : Int) : Int := (x + 2 ^ 63) % 2 ^ 64 - 2 ^ 63

/-- An instant: nanoseconds since the Unix epoch. -/
abbrev Time := Int

/-- The constant `time.Hour`, in nanoseconds. -/
def Hour : Int := 3600 * 1000000000

/-- The constant `time.Minute`, in nanoseconds. -/
def Minute : Int := 60 * 1000000000

/-- The zone `time.Local`: the offset east of UTC, in seconds, in force at an instant. -/
abbrev Zone := Time → Int

/-- The zone UTC. -/
def UTC : Zone := fun _ => 0

/-- Days since the Unix epoch of the calendar date of `t` in the zone `loc`, read with the
offset in force at `t`. -/
def dayNumber (loc : Zone) (t : Time) : Int := (t / 1000000000 + loc t) / 86400

/-- Go `Time.Weekday`: Sunday is 0; 1 January 1970 was a Thursday. -/
def Weekday (loc : Zone) (t : Time) : Nat := ((dayNumber loc t + 4) % 7).toNat

/-- Go `Time.After`. -/
def After (t u : Time) : Bool := decide (u < t)

/-- Go `Time.Before`. -/
def Before (t u : Time) : Bool := decide (t < u)

/-! ## store.go -/

/-- The attendance map `map[int]int` of an event. -/
abbrev Roster := List (Int × Int)

/-- Map read `m[k]` with the comma-ok flag: `none` when the key is absent. -/
def Roster.get? (r : Roster) (k : Int) : Option Int :=
  match r with
  | [] => none
  | (j, v) :: rest => if j = k then some v else Roster.get? rest k

/-- Go `delete(m, k)`. -/
def Roster.delete (r : Roster) (k : Int) : Roster := r.filter (fun p => decide (p.1 ≠ k))

/-- Map write `m[k] = v`. -/
def Roster.set (r : Roster) (k v : Int) : Roster := (k, v) :: Roster.delete r k

/-- The record `bowlingGroup` (without its database handle). -/
structure bowlingGroup where
  ID : Int
  Name : String
  Location : String
  Time : Time
  Day : Nat
  Setup : Bool
  NextEvent : String
deriving DecidableEq, Repr

/-- The record `bowlingEvent` (without its database handle). -/
structure bowlingEvent where
  ID : String
  Group : Int
  Time : Time
  Attendees : Roster
deriving DecidableEq, Repr

/-- The event bucket of the database, keyed by `ID`. -/
abbrev EventStore := List bowlingEvent

/-- The call `db.One("ID", id, e)` on the event bucket. -/
def EventStore.one (db : EventStore) (id : String) : Option bowlingEvent :=
  db.find? (fun e => decide (e.ID = id))

/-- The call `db.Save(e)`: insert, or replace the record with the same `ID`. -/
def EventStore.save (db : EventStore) (e : bowlingEvent) : EventStore :=
  e :: db.filter (fun x => decide (x.ID ≠ e.ID))

/-- The method `bowlingGroup.GetNextEvent`. -/
def GetNextEvent (db : EventStore) (g : bowlingGroup) (now : Time) : Option bowlingEvent :=
  if g.NextEvent = "" then none
  else
    match db.one g.NextEvent with
    | some e => if After e.Time now then some e else none
    | none => none

/-- The number of days `bowlingGroup.nextSlot` adds to the current instant. -/
def nextSlotDays (day today : Int) : Int :=
  if today > day then day + 7 - today else day - today

/-- The method `bowlingGroup.nextSlot`. -/
def nextSlot (loc : Zone) (Day : Nat) (now : Time) : Time :=
  let day : Int := Day
  let today : Int := Weekday loc now
  let days := nextSlotDays day today
  now + (days * 24) * Hour

/-- The method `bowlingGroup.NewEvent`; `uuid` is the value of `uuid.NewV1().String()`. -/
def NewEvent (loc : Zone) (db : EventStore) (g : bowlingGroup) (now : Time) (uuid : String) :
    bowlingEvent × bowlingGroup × EventStore :=
  let e : bowlingEvent :=
    { ID := uuid, Group := g.ID, Time := nextSlot loc g.Day now, Attendees := [] }
  let g1 : bowlingGroup := { g with NextEvent := e.ID }
  (e, g1, db.save e)

/-! ## Go strings and strconv -/

/-- Go `unicode.IsSpace`. -/
def isSpace (c : Char) : Bool :=
  let n := c.toNat
  n = 0x20 || (0x09 ≤ n && n ≤ 0x0D) || n = 0x85 || n = 0xA0 || n = 0x1680 ||
    (0x2000 ≤ n && n ≤ 0x200A) || n = 0x2028 || n = 0x2029 || n = 0x202F ||
    n = 0x205F || n = 0x3000

/-- Go `strings.TrimSpace` on the characters of a string. -/
def trimSpaceChars (s : List Char) : List Char :=
  ((s.dropWhile isSpace).reverse.dropWhile isSpace).reverse

/-- Go `strings.TrimSpace`. -/
def TrimSpace (s : String) : String := String.mk (trimSpaceChars s.data)

/-- Go `strings.HasPrefix`. -/
def HasPrefix (s p : String) : Bool := p.data.isPrefixOf s.data

/-- Go `strings.TrimPrefix` on the characters of a string. -/
def trimPrefixChars (s p : List Char) : List Char :=
  if p.isPrefixOf s then s.drop p.length else s

/-- Go `strings.TrimPrefix`. -/
def TrimPrefix (s p : String) : String := String.mk (trimPrefixChars s.data p.data)

/-- ASCII lower case of a character. -/
def lowerASCII (c : Char) : Char :=
  if 'A' ≤ c ∧ c ≤ 'Z' then Char.ofNat (c.toNat + 32) else c

/-- Go `strings.EqualFold(s, "bowling")`: no letter of `bowling` folds with a character
outside ASCII, so the comparison is equality up to ASCII case. -/
def EqualFoldBowling (s : String) : Bool :=
  decide (s.data.map lowerASCII = "bowling".data)

/-- The value of a decimal digit character. -/
def digitVal (c : Char) : Nat := c.toNat - 48

/-- The number a string of decimal digits denotes. -/
def parseDigits (ds : List Char) : Nat := ds.foldl (fun n c => n * 10 + digitVal c) 0

/-- Go `strconv.Atoi` on the characters of a string: an optional sign, then one or more
decimal digits, the value within the range of `int`; `none` stands for a non-nil error
(`ErrSyntax` or `ErrRange`, which the handlers do not tell apart). -/
def atoiChars (s : List Char) : Option Int :=
  match s with
  | [] => none
  | c :: rest =>
    let ds := if c = '-' ∨ c = '+' then rest else c :: rest
    if ds.isEmpty then none
    else if !ds.all Char.isDigit then none
    else
      let n : Int := parseDigits ds
      if c = '-' then
        if n > 2 ^ 63 then none else some (-n)
      else
        if n ≥ 2 ^ 63 then none else some n

/-- Go `strconv.Atoi`: the number, or `none` for a non-nil error. -/
def Atoi (s : String) : Option Int := atoiChars s.data

/-- The verb `%d` of `fmt.Sprintf` on an `int`. -/
def fmtInt (n : Int) : String := toString n

/-! ## bowlbot.go -/

/-- The fields of `tgbotapi.Message` the handlers read: `From` is `message.From.String()`,
`Command` and `CommandArguments` are the results of the methods of these names, and
`ReplyToMessage` is the `MessageID` of the message replied to, if any. -/
structure Message where
  MessageID : Int
  FromID : Int
  From : String
  ChatID : Int
  Command : String
  CommandArguments : String
  ReplyToMessage : Option Int
deriving DecidableEq, Repr

/-- The fields of `tgbotapi.MessageConfig` the handlers set. -/
structure MessageConfig where
  ChatID : Int
  Text : String
  ParseMode : String
  DisableNotification : Bool
deriving DecidableEq, Repr

/-- The constructor `tgbotapi.NewMessage`. -/
def NewMessage (chatID : Int) (text : String) : MessageConfig :=
  { ChatID := chatID, Text := text, ParseMode := "", DisableNotification := false }

/-- The constant `help`. -/
def help : String :=
  "The following commands are now available to you.\n" ++ "```" ++
  "\n /me    - to tell me of your desire to attend the event.\n /me+2  - as above but you're bringing two friends, how wonderful!\n /out   - to let me know you can no longer attend, how dreadful.\n /sub 1 - if it turns out that one of your friends cannot come.\n /count - to see how many people are coming, including their wonderful extras.\n /who   - for a list of who is coming.\n" ++ "```"

/-- The format `startEventMessagef` applied to its three arguments. -/
def startEventMessage (who clock weekday : String) : String :=
  "Good news everyone!\n" ++ who ++ " has proposed we go bowling at " ++ clock ++ " on " ++
    weekday ++
    ".\n" ++ help

/-- The function `plural`. -/
def plural (count : Int) (singular multiple : String) : String :=
  if count = 1 then singular else multiple

/-- The reply both handlers give to an argument they cannot use. -/
def pardon ( from_ : String) : String :=
  "I beg your pardon " ++ from_ ++ ", I'm not sure how to deal with that."

/-- The method `bowlBot.handleMe`. The result is the event bucket after the call, the
event `nextEvent` points to after the call, and the reply. -/
def handleMe (db : EventStore) (args : String) (nextEvent : bowlingEvent) (message : Message) :
    EventStore × bowlingEvent × MessageConfig :=
  let uid := message.FromID
  let from_ := message.From
  let args := TrimSpace ( TrimPrefix (TrimSpace args) "+")
  if args.length > 0 then
    match Atoi args with
    | none => (db, nextEvent, NewMessage message.ChatID (pardon from_))
    | some n =>
      if n < 1 then (db, nextEvent, NewMessage message.ChatID (pardon from_))
      else
        let fn := nextEvent.Attendees.get? uid
        let e1 := { nextEvent with Attendees := nextEvent.Attendees.set uid (wrapInt (n + 1)) }
        let db1 := db.save e1
        match fn with
        | some fn =>
          if fn > 1 then
            (db1, e1, NewMessage message.ChatID
              ("Ok " ++ from_ ++ ", I have recorded that you're bringing " ++ fmtInt n ++ " people"))
          else
            (db1, e1, NewMessage message.ChatID ("Excellent " ++ from_ ++ ", the more the merrier!"))
        | none =>
          (db1, e1, NewMessage message.ChatID
            ("Brilliant " ++ from_ ++ ", we look forward to seeing you and your " ++ fmtInt n ++
              " extras"))
  else
    let e1 := { nextEvent with Attendees := nextEvent.Attendees.set uid 1 }
    (db.save e1, e1, NewMessage message.ChatID ("Awesome " ++ from_ ++ ", we'll see you there"))

/-- The method `bowlBot.handleSub`, with the same result triple as `handleMe`. -/
def handleSub (db : EventStore) (args : String) (nextEvent : bowlingEvent) (message : Message) :
    EventStore × bowlingEvent × MessageConfig :=
  let uid := message.FromID
  let from_ := message.From
  let args := TrimSpace ( TrimPrefix (TrimSpace args) "-")
  if args.length > 0 then
    match Atoi args with
    | none => (db, nextEvent, NewMessage message.ChatID (pardon from_))
    | some n =>
      if n < 1 then (db, nextEvent, NewMessage message.ChatID (pardon from_))
      else
        match nextEvent.Attendees.get? uid with
        | some fn =>
          let coming := wrapInt (fn - n)
          let coming := if coming < 1 then 1 else coming
          let e1 := { nextEvent with Attendees := nextEvent.Attendees.set uid coming }
          let db1 := db.save e1
          if coming > 1 then
            (db1, e1, NewMessage message.ChatID
              ("Ok " ++ from_ ++ ", I have recorded that you're only bringing " ++
                fmtInt (wrapInt (coming - 1)) ++ " " ++
                plural (wrapInt (coming - 1)) "person" "people"))
          else
            (db1, e1, NewMessage message.ChatID ("Ok " ++ from_ ++ ", so it's just you."))
        | none =>
          (db, nextEvent, NewMessage message.ChatID ("But " ++ from_ ++ ", you're not even coming!"))
  else
    (db, nextEvent, NewMessage message.ChatID (pardon from_))

/-- The loop of the `count` command: the sum of the roster values in Go `int`. -/
def countAttendees (r : Roster) : Int := r.foldl (fun c p => wrapInt (c + p.2)) 0

/-- One line of the `who` command. -/
def whoLine (userName : Int → String) (p : Int × Int) : String :=
  let s := "   " ++ userName p.1
  if p.2 > 1 then
    s ++ " and " ++ fmtInt (wrapInt (p.2 - 1)) ++ " extra" ++ plural (wrapInt (p.2 - 1)) "" "s"
  else s

/-- What the handlers take from their surroundings: the zone of the clock, the name
`loadUser(id).String()` of a user, and `Time.Format` with a layout. -/
structure Env where
  loc : Zone
  userName : Int → String
  Format : String → Time → String

/-- Go `Weekday.String`. -/
def weekdayName (d : Nat) : String :=
  match d with
  | 0 => "Sunday"
  | 1 => "Monday"
  | 2 => "Tuesday"
  | 3 => "Wednesday"
  | 4 => "Thursday"
  | 5 => "Friday"
  | 6 => "Saturday"
  | _ => "%!Weekday(" ++ toString d ++ ")"

/-- A message with `DisableNotification` set. -/
def silent (msg : MessageConfig) : MessageConfig := { msg with DisableNotification := true }

/-- The `switch` of `bowlBot.handleCommand`, reached when the group has a next event and
the command is not `bowling`. -/
def handleRosterCommand (env : Env) (db : EventStore) (group : bowlingGroup)
    (nextEvent : bowlingEvent) (message : Message) : EventStore × bowlingGroup × MessageConfig :=
  let command := message.Command
  let from_ := message.From
  if command = "help" then
    (db, group, silent { NewMessage message.ChatID help with ParseMode := "Markdown" })
  else if command = "me" then
    let r := handleMe db message.CommandArguments nextEvent message
    (r.1, group, silent r.2.2)
  else if command = "sub" then
    let r := handleSub db message.CommandArguments nextEvent message
    (r.1, group, silent r.2.2)
  else if command = "out" then
    match nextEvent.Attendees.get? message.FromID with
    | some _ =>
      let e1 := { nextEvent with Attendees := nextEvent.Attendees.delete message.FromID }
      (db.save e1, group,
        silent (NewMessage message.ChatID ("Ok " ++ from_ ++ ", sorry you can't make it")))
    | none =>
      (db, group, silent (NewMessage message.ChatID
        ("But " ++ from_ ++ ", you weren't actually listed as coming!")))
  else if command = "count" then
    let c := countAttendees nextEvent.Attendees
    if c = 0 then
      (db, group, silent (NewMessage message.ChatID ("Hey " ++ from_ ++ ", no-one has signed up yet")))
    else
      (db, group, silent (NewMessage message.ChatID
        ("Hey " ++ from_ ++ ", there " ++ plural c "is" "are" ++ " " ++ fmtInt c ++
          " wonderful " ++ plural c "person" "people" ++ " coming bowling")))
  else if command = "who" then
    let coming := nextEvent.Attendees.map (whoLine env.userName)
    match coming with
    | [one] =>
      let who := TrimSpace one
      let who := if HasPrefix who from_ then "you" ++ TrimPrefix who from_ else who
      (db, group, silent (NewMessage message.ChatID
        ("Hey " ++ from_ ++ ", it looks like it's just " ++ who)))
    | [] =>
      (db, group, silent (NewMessage message.ChatID ("Hey " ++ from_ ++ ", no-one has signed up yet")))
    | _ =>
      (db, group, silent (NewMessage message.ChatID
        ("Hey " ++ from_ ++ ", the following people are coming\n" ++ String.intercalate "\n" coming)))
  else if command = "cancel" then
    (db, { group with NextEvent := "" }, NewMessage message.ChatID
      ("Hey everyone, unfortunately bowling has been cancelled by " ++ from_))
  else if HasPrefix command "me+" then
    let r := handleMe db ("+ " ++ TrimPrefix command "me+") nextEvent message
    (r.1, group, silent r.2.2)
  else if HasPrefix command "sub-" then
    let r := handleSub db ( TrimPrefix command "sub-") nextEvent message
    (r.1, group, silent r.2.2)
  else
    (db, group, silent { ChatID := 0, Text := "", ParseMode := "", DisableNotification := false })

/-- The method `bowlBot.handleCommand`: the event bucket and the group after the call, and
the message sent. -/
def handleCommand (env : Env) (db : EventStore) (group : bowlingGroup) (message : Message)
    (now : Time) (uuid : String) : EventStore × bowlingGroup × MessageConfig :=
  let cmdIsBowling := EqualFoldBowling message.Command
  match GetNextEvent db group now with
  | none =>
    if !cmdIsBowling then
      (db, group, silent (NewMessage message.ChatID
        ("Sorry " ++ message.From ++ ", there is no game in the near future")))
    else
      let r := NewEvent env.loc db group now uuid
      (r.2.2, r.2.1, { NewMessage message.ChatID
        (startEventMessage message.From (env.Format "15:04" group.Time)
          (weekdayName (Weekday env.loc r.1.Time))) with ParseMode := "Markdown" })
  | some nextEvent =>
    if cmdIsBowling then
      (db, group, silent (NewMessage message.ChatID
        ("Hey " ++ message.From ++ ", the next game is set for " ++
          env.Format "Monday 2" nextEvent.Time)))
    else handleRosterCommand env db group nextEvent message

/-- A chat command as it reaches `handleCommand`: the message and the instant of its
handling. -/
structure Step where
  message : Message
  now : Time
  uuid : String

/-- A run of `handleCommand` over a sequence of commands to one group. -/
def runCommands (env : Env) (db : EventStore) (group : bowlingGroup) (steps : List Step) :
    EventStore × bowlingGroup :=
  match steps with
  | [] => (db, group)
  | s :: rest =>
    let r := handleCommand env db group s.message s.now s.uuid
    runCommands env r.1 r.2.1 rest

/-! ## setupchat.go -/

/-- The record `convoNext`; `f` is `none` for the nil function. -/
structure convoNext (κ : Type) where
  c : Time
  f : Option κ
deriving DecidableEq, Repr

/-- The zero value of `time.Time`: 1 January of year 1, UTC. -/
def zeroTime : Time := -62135596800 * 1000000000

/-- The record `convoState`: the map `inReplyTo`. -/
structure convoState (κ : Type) where
  inReplyTo : List (Int × convoNext κ)
deriving DecidableEq, Repr

/-- Map read `c.inReplyTo[id]` with the comma-ok flag. -/
def convoState.lookup {κ : Type} (c : convoState κ) (id : Int) : Option (convoNext κ) :=
  (c.inReplyTo.find? (fun p => decide (p.1 = id))).map Prod.snd

/-- Map read `c.inReplyTo[id]`: the zero value when the key is absent. -/
def convoState.read {κ : Type} (c : convoState κ) (id : Int) : convoNext κ :=
  match c.lookup id with
  | some n => n
  | none => { c := zeroTime, f := none }

/-- Go `delete(c.inReplyTo, id)`. -/
def convoState.remove {κ : Type} (c : convoState κ) (id : Int) : convoState κ :=
  { inReplyTo := c.inReplyTo.filter (fun p => decide (p.1 ≠ id)) }

/-- The outcome of `convoState.next`: it returned at once, it called a continuation, or it
called the nil function, which is a run-time panic. -/
inductive Called (κ : Type) where
  | notAReply
  | invoked (f : κ) (message : Message)
  | nilFuncPanic
deriving DecidableEq, Repr

/-- The function `newConvoState`, without the sweeper it starts. -/
def newConvoState (κ : Type) : convoState κ := { inReplyTo := [] }

/-- The method `convoState.setNext`, at the instant `now`. -/
def convoState.setNext {κ : Type} (c : convoState κ) (id : Int) (f : Option κ) (now : Time) :
    convoState κ :=
  { inReplyTo := (id, { c := now, f := f }) :: (c.remove id).inReplyTo }

/-- The method `convoState.next`: the map after the call and what was called. -/
def convoState.next {κ : Type} (c : convoState κ) (message : Message) :
    convoState κ × Called κ :=
  match message.ReplyToMessage with
  | none => (c, Called.notAReply)
  | some id =>
    let n := c.read id
    let c1 := c.remove id
    match n.f with
    | some f => (c1, Called.invoked f message)
    | none => (c1, Called.nilFuncPanic)

/-- One round of the loop of `convoState.maintain`, woken at the instant `now`. -/
def convoState.maintain {κ : Type} (c : convoState κ) (now : Time) : convoState κ :=
  let deadline := now + (-10) * Minute
  { inReplyTo := c.inReplyTo.filter (fun p => !Before p.2.c deadline) }

/-! ## Inputs named by the properties -/

/-- The argument text of `/me` for `g` guests: empty for none, else the decimal text of `g`,
with a `+` in front when `plus` is set. -/
def guestText (g : Nat) (plus : Bool) : String :=
  if g = 0 then "" else (if plus then "+" else "") ++ toString g

/-- The argument text of `/sub` for a reduction by `n`: the decimal text of `n`, with a `-`
in front when `dash` is set (the form `/sub -1`). -/
def reduceText (n : Nat) (dash : Bool) : String :=
  (if dash then "-" else "") ++ toString n

/-- The sum of the roster values of the attendees other than `k`. -/
def sumOthers (r : Roster) (k : Int) : Int := ((r.delete k).map Prod.snd).sum

/-- The event after a sequence of `/me` calls of one attendee with the given argument texts. -/
def repeatMe (db : EventStore) (ev : bowlingEvent) (m : Message) (texts : List String) :
    EventStore × bowlingEvent :=
  match texts with
  | [] => (db, ev)
  | t :: rest => repeatMe (handleMe db t ev m).1 (handleMe db t ev m).2.1 m rest

/-- A text is numeric: an optional sign followed by one or more decimal digits. -/
def isNumeral (s : List Char) : Bool :=
  match s with
  | [] => false
  | c :: rest =>
    if c = '+' ∨ c = '-' then !rest.isEmpty && rest.all Char.isDigit
    else (c :: rest).all Char.isDigit

/-- The integer a numeric text denotes. -/
def numeralValue (s : List Char) : Int :=
  match s with
  | [] => 0
  | c :: rest =>
    if c = '-' then -(parseDigits rest : Int)
    else if c = '+' then (parseDigits rest : Int)
    else (parseDigits (c :: rest) : Int)

/-- The text `handleMe` is left with after trimming white space, one `+` and white space. -/
def meRemainder (args : String) : String := TrimSpace ( TrimPrefix (TrimSpace args) "+")

/-- The text `handleSub` is left with after trimming white space, one `-` and white space. -/
def subRemainder (args : String) : String := TrimSpace ( TrimPrefix (TrimSpace args) "-")

/-- A count text the handlers cannot use: not numeric, or denoting an integer below 1 or
above the largest `int`. -/
def badCount (s : String) : Bool :=
  !isNumeral s.data || decide (numeralValue s.data < 1) || decide (2 ^ 63 ≤ numeralValue s.data)

/-- A sender used in the examples. -/
def ann : Message :=
  { MessageID := 100, FromID := 7, From := "ann", ChatID := 5, Command := "me",
    CommandArguments := "", ReplyToMessage := none }

/-- An event used in the examples: `ann` with four guests, another attendee alone. -/
def friday : bowlingEvent :=
  { ID := "e1", Group := 5, Time := 24 * Hour, Attendees := [(7, 5), (8, 1)] }

/-- The three continuations `setupchat.go` registers. -/
inductive Continuation where
  | askForDayOfWeek
  | askForTime
  | doneAsking
deriving DecidableEq, Repr

/-- An operation on the tracker, as the handlers and the sweeper issue them. -/
inductive TrackerOp (κ : Type) where
  | setNext (id : Int) (f : Option κ)
  | next (message : Message)
  | maintain

/-- The operation registers the token `id` or resolves a reply to it. -/
def TrackerOp.touches {κ : Type} (id : Int) (op : TrackerOp κ) : Bool :=
  match op with
  | TrackerOp.setNext i _ => decide (i = id)
  | TrackerOp.next m => decide (m.ReplyToMessage = some id)
  | TrackerOp.maintain => false

/-- One operation at the instant `now`: the map after it and, for `next`, what was called. -/
def stepTracker {κ : Type} (c : convoState κ) (now : Time) (op : TrackerOp κ) :
    convoState κ × Option (Called κ) :=
  match op with
  | TrackerOp.setNext id f => (c.setNext id f now, none)
  | TrackerOp.next m => ((c.next m).1, some (c.next m).2)
  | TrackerOp.maintain => (c.maintain now, none)

/-- A timed sequence of operations: the map after it and the outcomes of its `next` calls,
the latest first. -/
def runTracker {κ : Type} (c : convoState κ) (ops : List (Time × TrackerOp κ)) :
    convoState κ × List (Called κ) :=
  match ops with
  | [] => (c, [])
  | (now, op) :: rest =>
    let r := runTracker (stepTracker c now op).1 rest
    match (stepTracker c now op).2 with
    | some out => (r.1, r.2 ++ [out])
    | none => r

/-- New York in the spring of 2000: five hours west of UTC until 2 April, 07:00 UTC, four
hours from then on. -/
def newYork : Zone := fun t => if t < 954658800 * 1000000000 then -18000 else -14400

/-- A reply to the message `id`. -/
def replyTo (id : Int) : Message :=
  { MessageID := 200, FromID := 7, From := "ann", ChatID := 5, Command := "",
    CommandArguments := "", ReplyToMessage := some id }

/-- Surroundings used in the examples: the clock in UTC. -/
def utc : Env := { loc := UTC, userName := fun _ => "someone", Format := fun _ _ => "" }

/-- A group used in the examples: bowling on Fridays, its next event the one of `friday`. -/
def club : bowlingGroup :=
  { ID := 5, Name := "club", Location := "Acme Lanes", Time := 18 * Hour, Day := 5,
    Setup := true, NextEvent := "e1" }

/-- The sender of the examples with another command. -/
def annSays (command args : String) : Message :=
  { ann with Command := command, CommandArguments := args }

/-! ## Scheduling -/

theorem Weekday_lt (loc : Zone) (t : Time) : Weekday loc t < 7 := by
  unfold Weekday
  omega

/-- C1: for a configured weekday `w` in 0..6 and an instant `now` whose weekday is `t`,
`nextSlot` returns `now + d * 24h` where `d` is 0 when `t = w` and otherwise the least
positive number of days with `(t + d) mod 7 = w`; `d` is at most 6 and advancing `t` by `d`
days gives `w`. -/
theorem nextSlot_offset (loc : Zone) (w : Nat) (now : Time) (hw : w < 7) :
    ∃ d : Nat, nextSlot loc w now = now + ((d : Int) * 24) * Hour ∧
      (Weekday loc now = w → d = 0) ∧
      (Weekday loc now ≠ w → 0 < d ∧ (Weekday loc now + d) % 7 = w ∧
        ∀ k : Nat, 0 < k → (Weekday loc now + k) % 7 = w → d ≤ k) ∧
      d ≤ 6 ∧ (Weekday loc now + d) % 7 = w := by
  have ht := Weekday_lt loc now
  refine ⟨(nextSlotDays w (Weekday loc now)).toNat, ?_, ?_, ?_, ?_, ?_⟩
  · have : ((nextSlotDays w (Weekday loc now)).toNat : Int) = nextSlotDays w (Weekday loc now) := by
      unfold nextSlotDays; split <;> omega
    simp only [nextSlot, this]
  · intro h; unfold nextSlotDays; split <;> omega
  · intro h
    refine ⟨?_, ?_, ?_⟩
    · unfold nextSlotDays; split <;> omega
    · unfold nextSlotDays; split <;> omega
    · intro k hk hkw; unfold nextSlotDays; split <;> omega
  · unfold nextSlotDays; split <;> omega
  · unfold nextSlotDays; split <;> omega

theorem nextSlot_offset_witness :
    (3 : Nat) < 7 ∧ ∃ d : Nat, nextSlot UTC 3 0 = 0 + ((d : Int) * 24) * Hour ∧
      (Weekday UTC 0 = 3 → d = 0) ∧
      (Weekday UTC 0 ≠ 3 → 0 < d ∧ (Weekday UTC 0 + d) % 7 = 3 ∧
        ∀ k : Nat, 0 < k → (Weekday UTC 0 + k) % 7 = 3 → d ≤ k) ∧
      d ≤ 6 ∧ (Weekday UTC 0 + d) % 7 = 3 :=
  ⟨by decide, nextSlot_offset UTC 3 0 (by decide)⟩

/-- The weekday of the instant `nextSlot` returns is the weekday read in the zone at that
instant: for a Sunday group, at 23:30 of Saturday 1 April 2000 in New York, the result is
24 hours later, which is 00:30 of Monday 3 April there, daylight saving having begun. -/
theorem nextSlot_across_zone_change :
    Weekday newYork (954649800 * 1000000000) = 6 ∧
      nextSlot newYork 0 (954649800 * 1000000000) = 954649800 * 1000000000 + 24 * Hour ∧
      Weekday newYork (nextSlot newYork 0 (954649800 * 1000000000)) = 1 := by
  decide

/-! ## The roster as a map -/

theorem Roster.delete_cons_eq (i v : Int) (rest : Roster) (k : Int) (h : i = k) :
    Roster.delete ((i, v) :: rest) k = Roster.delete rest k := by
  simp [Roster.delete, List.filter_cons, h]

theorem Roster.delete_cons_ne (i v : Int) (rest : Roster) (k : Int) (h : i ≠ k) :
    Roster.delete ((i, v) :: rest) k = (i, v) :: Roster.delete rest k := by
  simp [Roster.delete, List.filter_cons, h]

theorem Roster.get?_cons_eq (i v : Int) (rest : Roster) (k : Int) (h : i = k) :
    Roster.get? ((i, v) :: rest) k = some v := by
  simp [Roster.get?, h]

theorem Roster.get?_cons_ne (i v : Int) (rest : Roster) (k : Int) (h : i ≠ k) :
    Roster.get? ((i, v) :: rest) k = Roster.get? rest k := by
  simp [Roster.get?, h]

theorem Roster.get?_delete_self (r : Roster) (k : Int) : (r.delete k).get? k = none := by
  induction r with
  | nil => rfl
  | cons p rest ih =>
    obtain ⟨j, v⟩ := p
    by_cases h : j = k
    · rw [Roster.delete_cons_eq j v rest k h]; exact ih
    · rw [Roster.delete_cons_ne j v rest k h, Roster.get?_cons_ne j v _ k h]; exact ih

theorem Roster.get?_delete_ne (r : Roster) (k j : Int) (h : j ≠ k) :
    (r.delete k).get? j = r.get? j := by
  induction r with
  | nil => rfl
  | cons p rest ih =>
    obtain ⟨i, v⟩ := p
    by_cases hi : i = k
    · have hij : i ≠ j := fun e => h (e ▸ hi)
      rw [Roster.delete_cons_eq i v rest k hi, Roster.get?_cons_ne i v rest j hij]; exact ih
    · rw [Roster.delete_cons_ne i v rest k hi]
      by_cases hj : i = j
      · rw [Roster.get?_cons_eq i v _ j hj, Roster.get?_cons_eq i v _ j hj]
      · rw [Roster.get?_cons_ne i v _ j hj, Roster.get?_cons_ne i v _ j hj]; exact ih

theorem Roster.delete_of_get?_none (r : Roster) (k : Int) (h : r.get? k = none) :
    r.delete k = r := by
  induction r with
  | nil => rfl
  | cons p rest ih =>
    obtain ⟨i, v⟩ := p
    by_cases hi : i = k
    · rw [Roster.get?_cons_eq i v rest k hi] at h; cases h
    · rw [Roster.get?_cons_ne i v rest k hi] at h
      rw [Roster.delete_cons_ne i v rest k hi, ih h]

theorem Roster.get?_set_self (r : Roster) (k v : Int) : (r.set k v).get? k = some v :=
  Roster.get?_cons_eq k v _ k rfl

theorem Roster.get?_set_ne (r : Roster) (k v j : Int) (h : j ≠ k) :
    (r.set k v).get? j = r.get? j := by
  unfold Roster.set
  rw [Roster.get?_cons_ne k v _ j (Ne.symm h)]
  exact Roster.get?_delete_ne r k j h

theorem Roster.delete_delete (r : Roster) (k : Int) : (r.delete k).delete k = r.delete k :=
  Roster.delete_of_get?_none _ k (Roster.get?_delete_self r k)

theorem Roster.delete_set (r : Roster) (k v : Int) : (r.set k v).delete k = r.delete k := by
  unfold Roster.set
  rw [Roster.delete_cons_eq k v _ k rfl]
  exact Roster.delete_delete r k

/-! ## Go `int` arithmetic -/

theorem wrapInt_of_range (x : Int) (h1 : -(2 ^ 63) ≤ x) (h2 : x < 2 ^ 63) : wrapInt x = x := by
  unfold wrapInt
  omega

theorem wrapInt_range (x : Int) : -(2 ^ 63) ≤ wrapInt x ∧ wrapInt x < 2 ^ 63 := by
  unfold wrapInt
  omega

theorem wrapInt_add_wrapInt (a b : Int) : wrapInt (wrapInt a + b) = wrapInt (a + b) := by
  unfold wrapInt
  omega

/-- The sum of the values of a roster, as a mathematical integer. -/
theorem countAttendees_foldl (r : Roster) (c : Int) :
    r.foldl (fun c p => wrapInt (c + p.2)) (wrapInt c) = wrapInt (c + (r.map Prod.snd).sum) := by
  induction r generalizing c with
  | nil => simp
  | cons p rest ih =>
    simp only [List.foldl_cons, List.map_cons, List.sum_cons]
    rw [wrapInt_add_wrapInt, ih]
    congr 1
    ring

theorem countAttendees_eq (r : Roster) : countAttendees r = wrapInt ((r.map Prod.snd).sum) := by
  have h := countAttendees_foldl r 0
  have h0 : wrapInt 0 = 0 := by decide
  rw [h0] at h
  simpa [countAttendees] using h

/-! ## Decimal text -/

theorem digitChar_isDigit : ∀ d : Nat, d < 10 →
    (Nat.digitChar d).isDigit = true ∧ digitVal (Nat.digitChar d) = d := by
  decide

theorem isDigit_toNat (c : Char) (h : c.isDigit = true) : 48 ≤ c.toNat ∧ c.toNat ≤ 57 := by
  simp only [Char.isDigit, Bool.and_eq_true, decide_eq_true_eq] at h
  constructor
  · simpa [Char.toNat, UInt32.le_def] using h.1
  · simpa [Char.toNat, UInt32.le_def] using h.2

theorem isDigit_not_isSpace (c : Char) (h : c.isDigit = true) : isSpace c = false := by
  have hb := isDigit_toNat c h
  unfold isSpace
  simp only [Bool.or_eq_false_iff, Bool.and_eq_false_iff, decide_eq_false_iff_not]
  omega

theorem isDigit_ne_sign (c : Char) (h : c.isDigit = true) : c ≠ '+' ∧ c ≠ '-' := by
  have hb := isDigit_toNat c h
  constructor
  · intro e; rw [e] at hb; revert hb; decide
  · intro e; rw [e] at hb; revert hb; decide

theorem parseDigits_append_one (l : List Char) (d : Char) :
    parseDigits (l ++ [d]) = parseDigits l * 10 + digitVal d := by
  simp [parseDigits, List.foldl_append]

/-- The digits `Nat.toDigitsCore` puts before its accumulator. -/
theorem toDigitsCore_spec (fuel : Nat) : ∀ (n : Nat) (acc : List Char), n < fuel →
    ∃ l : List Char, Nat.toDigitsCore 10 fuel n acc = l ++ acc ∧ l ≠ [] ∧
      l.all Char.isDigit = true ∧ parseDigits l = n := by
  induction fuel with
  | zero => intro n acc h; omega
  | succ fuel ih =>
    intro n acc h
    have hd := digitChar_isDigit (n % 10) (Nat.mod_lt n (by decide))
    by_cases h0 : n / 10 = 0
    · refine ⟨[Nat.digitChar (n % 10)], ?_, by simp, ?_, ?_⟩
      · simp [Nat.toDigitsCore, h0]
      · simp [hd.1]
      · simp [parseDigits, hd.2]; omega
    · obtain ⟨l, hl, hne, hall, hval⟩ := ih (n / 10) (Nat.digitChar (n % 10) :: acc) (by omega)
      refine ⟨l ++ [Nat.digitChar (n % 10)], ?_, by simp, ?_, ?_⟩
      · simp [Nat.toDigitsCore, h0, hl]
      · simp [List.all_append, hall, hd.1]
      · rw [parseDigits_append_one, hval, hd.2]; omega

theorem repr_data (n : Nat) : (toString n).data ≠ [] ∧
    (toString n).data.all Char.isDigit = true ∧ parseDigits (toString n).data = n := by
  obtain ⟨l, hl, hne, hall, hval⟩ := toDigitsCore_spec (n + 1) n [] (by omega)
  have : (toString n).data = l := by
    show (Nat.repr n).data = l
    simp [Nat.repr, Nat.toDigits, hl, List.asString]
  rw [this]
  exact ⟨hne, hall, hval⟩

theorem dropWhile_isSpace_digits (l rest : List Char) (hne : l ≠ [])
    (hall : l.all Char.isDigit = true) : (l ++ rest).dropWhile isSpace = l ++ rest := by
  cases l with
  | nil => exact absurd rfl hne
  | cons c t =>
    have hc : c.isDigit = true := by
      simp only [List.all_cons, Bool.and_eq_true] at hall; exact hall.1
    simp [List.dropWhile, isDigit_not_isSpace c hc]

theorem reverse_digits (l : List Char) (hne : l ≠ []) (hall : l.all Char.isDigit = true) :
    l.reverse ≠ [] ∧ l.reverse.all Char.isDigit = true := by
  constructor
  · simpa using hne
  · simpa using hall

/-- White space is trimmed from neither end of a text of digits with a prefix in front that
does not begin with white space. -/
theorem trimSpaceChars_digits (pre l : List Char) (hne : l ≠ [])
    (hall : l.all Char.isDigit = true)
    (hpre : (pre ++ l).dropWhile isSpace = pre ++ l) :
    trimSpaceChars (pre ++ l) = pre ++ l := by
  unfold trimSpaceChars
  rw [hpre, List.reverse_append]
  obtain ⟨h1, h2⟩ := reverse_digits l hne hall
  rw [dropWhile_isSpace_digits l.reverse pre.reverse h1 h2, ← List.reverse_append,
    List.reverse_reverse]

theorem trimSpaceChars_digits_only (l : List Char) (hne : l ≠ [])
    (hall : l.all Char.isDigit = true) : trimSpaceChars l = l := by
  have h := trimSpaceChars_digits [] l hne hall
    (by simpa using dropWhile_isSpace_digits l [] hne hall)
  simpa using h

theorem trimSpaceChars_sign_digits (s : Char) (hs : isSpace s = false) (l : List Char)
    (hne : l ≠ []) (hall : l.all Char.isDigit = true) :
    trimSpaceChars (s :: l) = s :: l := by
  have h := trimSpaceChars_digits [s] l hne hall (by simp [List.dropWhile, hs])
  simpa using h

theorem trimPrefixChars_digits (s : Char) (l : List Char) (hne : l ≠ [])
    (hall : l.all Char.isDigit = true) (hs : s.isDigit = false) :
    trimPrefixChars l [s] = l := by
  cases l with
  | nil => exact absurd rfl hne
  | cons c t =>
    have hc : c.isDigit = true := by
      simp only [List.all_cons, Bool.and_eq_true] at hall; exact hall.1
    have : s ≠ c := by intro e; rw [e, hc] at hs; cases hs
    simp [trimPrefixChars, List.isPrefixOf, this]

theorem trimPrefixChars_sign (s : Char) (l : List Char) : trimPrefixChars (s :: l) [s] = l := by
  simp [trimPrefixChars, List.isPrefixOf]

/-- On a non-empty text of digits whose number fits an `int`, `Atoi` returns the number. -/
theorem atoiChars_digits (l : List Char) (hne : l ≠ []) (hall : l.all Char.isDigit = true)
    (hlt : (parseDigits l : Int) < 2 ^ 63) : atoiChars l = some (parseDigits l : Int) := by
  cases l with
  | nil => exact absurd rfl hne
  | cons c t =>
    have hc : c.isDigit = true := by
      simp only [List.all_cons, Bool.and_eq_true] at hall; exact hall.1
    obtain ⟨hp, hm⟩ := isDigit_ne_sign c hc
    unfold atoiChars
    simp only [hp, hm, or_self, if_false, List.isEmpty_cons, hall, Bool.not_true]
    simp only [Bool.false_eq_true, if_false]
    rw [if_neg (by omega)]

/-- On a non-empty text of digits whose number does not fit an `int`, `Atoi` fails. -/
theorem atoiChars_digits_big (l : List Char) (hne : l ≠ []) (hall : l.all Char.isDigit = true)
    (hge : (2 : Int) ^ 63 ≤ (parseDigits l : Int)) :
    atoiChars l = none := by
  cases l with
  | nil => exact absurd rfl hne
  | cons c t =>
    have hc : c.isDigit = true := by
      simp only [List.all_cons, Bool.and_eq_true] at hall; exact hall.1
    obtain ⟨hp, hm⟩ := isDigit_ne_sign c hc
    unfold atoiChars
    simp only [hp, hm, or_self, if_false, List.isEmpty_cons, hall, Bool.not_true]
    simp only [Bool.false_eq_true, if_false]
    rw [if_pos (by omega)]

/-! ## The two handlers, case by case -/

theorem handleMe_empty (db : EventStore) (args : String) (ev : bowlingEvent) (m : Message)
    (h : (TrimSpace ( TrimPrefix (TrimSpace args) "+")).length = 0) :
    handleMe db args ev m =
      (db.save { ev with Attendees := ev.Attendees.set m.FromID 1 },
        { ev with Attendees := ev.Attendees.set m.FromID 1 },
        NewMessage m.ChatID ("Awesome " ++ m.From ++ ", we'll see you there")) := by
  unfold handleMe
  simp only [h, gt_iff_lt, lt_self_iff_false, if_false]

theorem handleMe_error (db : EventStore) (args : String) (ev : bowlingEvent) (m : Message)
    (h : 0 < (TrimSpace ( TrimPrefix (TrimSpace args) "+")).length)
    (ha : Atoi (TrimSpace ( TrimPrefix (TrimSpace args) "+")) = none) :
    handleMe db args ev m = (db, ev, NewMessage m.ChatID (pardon m.From)) := by
  unfold handleMe
  simp only [gt_iff_lt, h, if_true, ha]

theorem handleMe_low (db : EventStore) (args : String) (ev : bowlingEvent) (m : Message)
    (n : Int) (h : 0 < (TrimSpace ( TrimPrefix (TrimSpace args) "+")).length)
    (ha : Atoi (TrimSpace ( TrimPrefix (TrimSpace args) "+")) = some n) (hn : n < 1) :
    handleMe db args ev m = (db, ev, NewMessage m.ChatID (pardon m.From)) := by
  unfold handleMe
  simp only [gt_iff_lt, h, if_true, ha, hn]

theorem handleMe_ok (db : EventStore) (args : String) (ev : bowlingEvent) (m : Message)
    (n : Int) (h : 0 < (TrimSpace ( TrimPrefix (TrimSpace args) "+")).length)
    (ha : Atoi (TrimSpace ( TrimPrefix (TrimSpace args) "+")) = some n) (hn : 1 ≤ n) :
    (handleMe db args ev m).2.1 =
        { ev with Attendees := ev.Attendees.set m.FromID (wrapInt (n + 1)) } ∧
      (handleMe db args ev m).1 =
        db.save { ev with Attendees := ev.Attendees.set m.FromID (wrapInt (n + 1)) } := by
  unfold handleMe
  simp only [gt_iff_lt, h, if_true, ha, not_lt.mpr hn, if_false]
  cases hf : ev.Attendees.get? m.FromID with
  | none => simp
  | some fn => by_cases hfn : fn > 1 <;> simp [hfn]

theorem TrimSpace_data (s : String) : (TrimSpace s).data = trimSpaceChars s.data := rfl

theorem TrimPrefix_data (s p : String) :
    ( TrimPrefix s p).data = trimPrefixChars s.data p.data := rfl

/-- The handlers see the decimal text of a positive count once they have trimmed the
argument text and its sign. -/
theorem trimmed_text (sign : Char) (hs : isSpace sign = false) (hd : sign.isDigit = false)
    (n : Nat) (signed : Bool) :
    TrimSpace ( TrimPrefix (TrimSpace ((if signed then String.singleton sign else "") ++
      toString n)) (String.singleton sign)) = toString n := by
  obtain ⟨hne, hall, _⟩ := repr_data n
  apply String.ext
  rw [TrimSpace_data, TrimPrefix_data, TrimSpace_data]
  cases signed with
  | false =>
    have e1 : (((if false = true then String.singleton sign else "") ++ toString n)).data =
        (toString n).data := by simp
    have e2 : (String.singleton sign).data = [sign] := rfl
    rw [e1, e2, trimSpaceChars_digits_only _ hne hall, trimPrefixChars_digits sign _ hne hall hd,
      trimSpaceChars_digits_only _ hne hall]
  | true =>
    have e1 : (((if true = true then String.singleton sign else "") ++ toString n)).data =
        sign :: (toString n).data := by simp [String.singleton]
    have e2 : (String.singleton sign).data = [sign] := rfl
    rw [e1, e2, trimSpaceChars_sign_digits sign hs _ hne hall, trimPrefixChars_sign,
      trimSpaceChars_digits_only _ hne hall]

theorem guestText_trimmed (g : Nat) (plus : Bool) (hg : 0 < g) :
    TrimSpace ( TrimPrefix (TrimSpace (guestText g plus)) "+") = toString g := by
  have h := trimmed_text '+' (by decide) (by decide) g plus
  have e : guestText g plus = (if plus then String.singleton '+' else "") ++ toString g := by
    unfold guestText
    rw [if_neg (by omega)]
    rfl
  rw [e]
  exact h

theorem reduceText_trimmed (n : Nat) (dash : Bool) :
    TrimSpace ( TrimPrefix (TrimSpace (reduceText n dash)) "-") = toString n :=
  trimmed_text '-' (by decide) (by decide) n dash

theorem text_length_pos (n : Nat) : 0 < (toString n).length := by
  obtain ⟨hne, _, _⟩ := repr_data n
  have : (toString n).length = (toString n).data.length := rfl
  rw [this]
  exact List.length_pos.mpr hne

theorem Atoi_text (n : Nat) (h : (n : Int) < 2 ^ 63) : Atoi (toString n) = some (n : Int) := by
  obtain ⟨hne, hall, hval⟩ := repr_data n
  unfold Atoi
  rw [atoiChars_digits _ hne hall (by rw [hval]; exact h), hval]

theorem Atoi_text_big (n : Nat) (h : (2 : Int) ^ 63 ≤ (n : Int)) :
    Atoi (toString n) = none := by
  obtain ⟨hne, hall, hval⟩ := repr_data n
  unfold Atoi
  exact atoiChars_digits_big _ hne hall (by rw [hval]; exact h)

/-- Whatever its argument, `/me` leaves the event as it is or writes the caller's entry. -/
theorem handleMe_cases (db : EventStore) (args : String) (ev : bowlingEvent) (m : Message) :
    (handleMe db args ev m).2.1 = ev ∨
      ∃ v, (handleMe db args ev m).2.1 = { ev with Attendees := ev.Attendees.set m.FromID v } := by
  by_cases h : 0 < (TrimSpace ( TrimPrefix (TrimSpace args) "+")).length
  · cases ha : Atoi (TrimSpace ( TrimPrefix (TrimSpace args) "+")) with
    | none => left; rw [handleMe_error db args ev m h ha]
    | some n =>
      by_cases hn : n < 1
      · left; rw [handleMe_low db args ev m n h ha hn]
      · right; exact ⟨_, (handleMe_ok db args ev m n h ha (not_lt.mp hn)).1⟩
  · right
    have h0 : (TrimSpace ( TrimPrefix (TrimSpace args) "+")).length = 0 := by omega
    exact ⟨1, by rw [handleMe_empty db args ev m h0]⟩

theorem handleMe_delete (db : EventStore) (args : String) (ev : bowlingEvent) (m : Message) :
    (handleMe db args ev m).2.1.Attendees.delete m.FromID = ev.Attendees.delete m.FromID := by
  rcases handleMe_cases db args ev m with h | ⟨v, h⟩
  · rw [h]
  · rw [h]; exact Roster.delete_set _ _ _

theorem repeatMe_delete (texts : List String) : ∀ (db : EventStore) (ev : bowlingEvent)
    (m : Message), (repeatMe db ev m texts).2.Attendees.delete m.FromID =
      ev.Attendees.delete m.FromID := by
  induction texts with
  | nil => intro db ev m; rfl
  | cons t rest ih =>
    intro db ev m
    unfold repeatMe
    rw [ih, handleMe_delete]

theorem Roster.get?_of_delete_eq (r s : Roster) (k j : Int) (h : r.delete k = s.delete k)
    (hj : j ≠ k) : r.get? j = s.get? j := by
  rw [← Roster.get?_delete_ne r k j hj, h, Roster.get?_delete_ne s k j hj]

theorem sum_set (r : Roster) (k v : Int) :
    ((r.set k v).map Prod.snd).sum = sumOthers r k + v := by
  unfold Roster.set sumOthers
  simp only [List.map_cons, List.sum_cons]
  ring

/-- C2 (amended): for every roster, attendee and guest count `g` with `g + 1` an `int`
(`g` at most `2^63 - 2`), after any earlier `/me` calls of the same attendee, `handleMe`
with the text of `g` (empty for 0, else the decimal text, with or without a `+`) sets the
attendee's entry to `g + 1`, leaves every other entry as it was before all the calls, saves
the event, and the `count` total is the sum of the other entries plus `g + 1` in Go `int`
arithmetic, which is that sum itself when it fits an `int`. -/
theorem handleMe_overwrites (db : EventStore) (ev : bowlingEvent) (m : Message)
    (texts : List String) (g : Nat) (plus : Bool) (hg : (g : Int) + 1 < 2 ^ 63) :
    (handleMe (repeatMe db ev m texts).1 (guestText g plus) (repeatMe db ev m texts).2 m
        ).2.1.Attendees.get? m.FromID = some ((g : Int) + 1) ∧
      (∀ k, k ≠ m.FromID →
        (handleMe (repeatMe db ev m texts).1 (guestText g plus) (repeatMe db ev m texts).2 m
          ).2.1.Attendees.get? k = ev.Attendees.get? k) ∧
      (handleMe (repeatMe db ev m texts).1 (guestText g plus) (repeatMe db ev m texts).2 m).1 =
        (repeatMe db ev m texts).1.save
          (handleMe (repeatMe db ev m texts).1 (guestText g plus) (repeatMe db ev m texts).2 m).2.1 ∧
      countAttendees
          (handleMe (repeatMe db ev m texts).1 (guestText g plus) (repeatMe db ev m texts).2 m
            ).2.1.Attendees = wrapInt (sumOthers ev.Attendees m.FromID + ((g : Int) + 1)) ∧
      (sumOthers ev.Attendees m.FromID + ((g : Int) + 1) < 2 ^ 63 →
        -(2 ^ 63) ≤ sumOthers ev.Attendees m.FromID + ((g : Int) + 1) →
        countAttendees
          (handleMe (repeatMe db ev m texts).1 (guestText g plus) (repeatMe db ev m texts).2 m
            ).2.1.Attendees = sumOthers ev.Attendees m.FromID + ((g : Int) + 1)) := by
  have hdel := repeatMe_delete texts db ev m
  generalize (repeatMe db ev m texts).1 = db1 at *
  generalize (repeatMe db ev m texts).2 = e1 at *
  have key : (handleMe db1 (guestText g plus) e1 m).2.1 =
        { e1 with Attendees := e1.Attendees.set m.FromID ((g : Int) + 1) } ∧
      (handleMe db1 (guestText g plus) e1 m).1 =
        db1.save { e1 with Attendees := e1.Attendees.set m.FromID ((g : Int) + 1) } := by
    by_cases h0 : g = 0
    · subst h0
      have hz : (TrimSpace ( TrimPrefix (TrimSpace (guestText 0 plus)) "+")).length = 0 := by
        have : guestText 0 plus = "" := by simp [guestText]
        rw [this]; decide
      rw [handleMe_empty db1 _ e1 m hz]
      simp
    · have hpos : 0 < g := Nat.pos_of_ne_zero h0
      have ht := guestText_trimmed g plus hpos
      have hl : 0 < (TrimSpace ( TrimPrefix (TrimSpace (guestText g plus)) "+")).length := by
        rw [ht]; exact text_length_pos g
      have ha : Atoi (TrimSpace ( TrimPrefix (TrimSpace (guestText g plus)) "+")) =
          some (g : Int) := by
        rw [ht]; exact Atoi_text g (by omega)
      have hok := handleMe_ok db1 _ e1 m (g : Int) hl ha (by omega)
      rw [wrapInt_of_range _ (by omega) hg] at hok
      exact hok
  have hsum : ((e1.Attendees.set m.FromID ((g : Int) + 1)).map Prod.snd).sum =
      sumOthers ev.Attendees m.FromID + ((g : Int) + 1) := by
    rw [sum_set]; unfold sumOthers; rw [hdel]
  refine ⟨?_, ?_, ?_, ?_, ?_⟩
  · rw [key.1]; exact Roster.get?_set_self _ _ _
  · intro k hk
    rw [key.1]
    show (e1.Attendees.set m.FromID ((g : Int) + 1)).get? k = _
    rw [Roster.get?_set_ne _ _ _ _ hk]
    exact Roster.get?_of_delete_eq _ _ _ _ hdel hk
  · rw [key.2, key.1]
  · rw [key.1, countAttendees_eq]
    show wrapInt (((e1.Attendees.set m.FromID ((g : Int) + 1)).map Prod.snd).sum) = _
    rw [hsum]
  · intro h1 h2
    rw [key.1, countAttendees_eq]
    show wrapInt (((e1.Attendees.set m.FromID ((g : Int) + 1)).map Prod.snd).sum) = _
    rw [hsum]
    exact wrapInt_of_range _ h2 h1

theorem handleSub_empty (db : EventStore) (args : String) (ev : bowlingEvent) (m : Message)
    (h : (TrimSpace ( TrimPrefix (TrimSpace args) "-")).length = 0) :
    handleSub db args ev m = (db, ev, NewMessage m.ChatID (pardon m.From)) := by
  unfold handleSub
  simp only [h, gt_iff_lt, lt_self_iff_false, if_false]

theorem handleSub_error (db : EventStore) (args : String) (ev : bowlingEvent) (m : Message)
    (h : 0 < (TrimSpace ( TrimPrefix (TrimSpace args) "-")).length)
    (ha : Atoi (TrimSpace ( TrimPrefix (TrimSpace args) "-")) = none) :
    handleSub db args ev m = (db, ev, NewMessage m.ChatID (pardon m.From)) := by
  unfold handleSub
  simp only [gt_iff_lt, h, if_true, ha]

theorem handleSub_low (db : EventStore) (args : String) (ev : bowlingEvent) (m : Message)
    (n : Int) (h : 0 < (TrimSpace ( TrimPrefix (TrimSpace args) "-")).length)
    (ha : Atoi (TrimSpace ( TrimPrefix (TrimSpace args) "-")) = some n) (hn : n < 1) :
    handleSub db args ev m = (db, ev, NewMessage m.ChatID (pardon m.From)) := by
  unfold handleSub
  simp only [gt_iff_lt, h, if_true, ha, hn]

theorem handleSub_absent (db : EventStore) (args : String) (ev : bowlingEvent) (m : Message)
    (n : Int) (h : 0 < (TrimSpace ( TrimPrefix (TrimSpace args) "-")).length)
    (ha : Atoi (TrimSpace ( TrimPrefix (TrimSpace args) "-")) = some n) (hn : 1 ≤ n)
    (hf : ev.Attendees.get? m.FromID = none) :
    handleSub db args ev m =
      (db, ev, NewMessage m.ChatID ("But " ++ m.From ++ ", you're not even coming!")) := by
  unfold handleSub
  simp only [gt_iff_lt, h, if_true, ha, not_lt.mpr hn, if_false, hf]

theorem handleSub_found (db : EventStore) (args : String) (ev : bowlingEvent) (m : Message)
    (n c : Int) (h : 0 < (TrimSpace ( TrimPrefix (TrimSpace args) "-")).length)
    (ha : Atoi (TrimSpace ( TrimPrefix (TrimSpace args) "-")) = some n) (hn : 1 ≤ n)
    (hf : ev.Attendees.get? m.FromID = some c) :
    (handleSub db args ev m).2.1 =
        { ev with Attendees := ev.Attendees.set m.FromID (max 1 (wrapInt (c - n))) } ∧
      (handleSub db args ev m).1 =
        db.save { ev with Attendees := ev.Attendees.set m.FromID (max 1 (wrapInt (c - n))) } := by
  unfold handleSub
  simp only [gt_iff_lt, h, if_true, ha, not_lt.mpr hn, if_false, hf]
  have hmax : (if wrapInt (c - n) < 1 then 1 else wrapInt (c - n)) = max 1 (wrapInt (c - n)) := by
    split <;> omega
  rw [hmax]
  by_cases hc : 1 < max 1 (wrapInt (c - n)) <;> simp [hc]

/-- C3 (amended): for every roster, attendee and reduction `n` with `1 ≤ n ≤ 2^63 - 1`,
given to `handleSub` as decimal text (with or without a `-`): if the attendee has an entry
`c`, the handler stores `max(1, c - n)` computed in Go `int`, which is at least 1 and is
`max(1, c - n)` itself whenever `c - n` is an `int` (so for every `c ≥ 1`), hence exactly 1
when `n ≥ c - 1`; every other entry is unchanged and the event is saved. If the attendee has
no entry, store and roster are unchanged and the reply is the not-coming one. -/
theorem handleSub_clamps (db : EventStore) (ev : bowlingEvent) (m : Message) (n : Nat)
    (dash : Bool) (h1 : 1 ≤ n) (h2 : (n : Int) < 2 ^ 63) :
    match ev.Attendees.get? m.FromID with
    | some c =>
      (handleSub db (reduceText n dash) ev m).2.1.Attendees.get? m.FromID =
          some (max 1 (wrapInt (c - n))) ∧
        1 ≤ max 1 (wrapInt (c - n)) ∧
        (-(2 ^ 63) ≤ c - n → c < 2 ^ 63 → wrapInt (c - n) = c - n) ∧
        (-(2 ^ 63) ≤ c - n → c - 1 ≤ n → max 1 (wrapInt (c - n)) = 1) ∧
        (∀ k, k ≠ m.FromID →
          (handleSub db (reduceText n dash) ev m).2.1.Attendees.get? k = ev.Attendees.get? k) ∧
        (handleSub db (reduceText n dash) ev m).1 =
          db.save (handleSub db (reduceText n dash) ev m).2.1
    | none =>
      handleSub db (reduceText n dash) ev m =
        (db, ev, NewMessage m.ChatID ("But " ++ m.From ++ ", you're not even coming!")) := by
  have ht := reduceText_trimmed n dash
  have hl : 0 < (TrimSpace ( TrimPrefix (TrimSpace (reduceText n dash)) "-")).length := by
    rw [ht]; exact text_length_pos n
  have ha : Atoi (TrimSpace ( TrimPrefix (TrimSpace (reduceText n dash)) "-")) =
      some (n : Int) := by
    rw [ht]; exact Atoi_text n h2
  cases hf : ev.Attendees.get? m.FromID with
  | none => exact handleSub_absent db _ ev m n hl ha (by omega) hf
  | some c =>
    obtain ⟨k1, k2⟩ := handleSub_found db _ ev m n c hl ha (by omega) hf
    refine ⟨?_, ?_, ?_, ?_, ?_, ?_⟩
    · rw [k1]; exact Roster.get?_set_self _ _ _
    · omega
    · intro a b; exact wrapInt_of_range _ a (by omega)
    · intro a b
      have hr := wrapInt_range (c - n)
      by_cases hc : c < 2 ^ 63
      · rw [wrapInt_of_range _ a (by omega)]; omega
      · rw [wrapInt_of_range _ a (by omega)]; omega
    · intro k hk; rw [k1]; exact Roster.get?_set_ne _ _ _ _ hk
    · rw [k2, k1]

/-- A text `Atoi` accepts is numeric and `Atoi` returns the `int` it denotes. -/
theorem atoiChars_ok (s : List Char) (n : Int) (h : atoiChars s = some n) :
    isNumeral s = true ∧ numeralValue s = n ∧ n < 2 ^ 63 := by
  cases s with
  | nil => simp [atoiChars] at h
  | cons c rest =>
    unfold atoiChars at h
    by_cases hm : c = '-'
    · subst hm
      simp only [true_or, if_true] at h
      by_cases he : rest.isEmpty = true
      · simp [he] at h
      · by_cases hd : rest.all Char.isDigit = true
        · simp only [he, hd, Bool.not_true, Bool.false_eq_true, if_false] at h
          split at h
          · cases h
          · injection h with h
            refine ⟨by simp [isNumeral, he, hd], by simp [numeralValue, h], by omega⟩
        · simp [he, hd] at h
    · by_cases hp : c = '+'
      · subst hp
        simp only [or_true, if_true] at h
        by_cases he : rest.isEmpty = true
        · simp [he] at h
        · by_cases hd : rest.all Char.isDigit = true
          · simp only [he, hd, Bool.not_true, Bool.false_eq_true, if_false, hm] at h
            split at h
            · cases h
            · injection h with h
              refine ⟨by simp [isNumeral, he, hd], by simp [numeralValue, hm, h], by omega⟩
          · simp [he, hd] at h
      · simp only [hm, hp, or_self, if_false, List.isEmpty_cons] at h
        by_cases hd : (c :: rest).all Char.isDigit = true
        · simp only [hd, Bool.not_true, Bool.false_eq_true, if_false] at h
          split at h
          · cases h
          · injection h with h
            refine ⟨by simp only [isNumeral, hm, hp, or_self, if_false, hd],
              by simp only [numeralValue, hm, hp, if_false, h], by omega⟩
        · simp [hd] at h

theorem length_pos_of_ne_empty (s : String) (h : s ≠ "") : 0 < s.length := by
  have : s.data ≠ [] := by
    intro e
    apply h
    apply String.ext
    rw [e]
  exact List.length_pos.mpr this

theorem badCount_of_ok (s : String) (n : Int) (hb : badCount s = true)
    (ha : Atoi s = some n) : n < 1 := by
  obtain ⟨h1, h2, h3⟩ := atoiChars_ok s.data n ha
  unfold badCount at hb
  rw [h1, h2] at hb
  simp only [Bool.not_true, Bool.false_or, Bool.or_eq_true, decide_eq_true_eq] at hb
  omega

/-- C7 (amended): for every roster and every argument text, let the remainder be the text
after the trimming of the handler (white space, one leading `+` for `/me` or `-` for `/sub`,
white space). `handleMe` answers a non-empty remainder that is not numeric, or denotes an
integer below 1 or above the largest `int`, with the pardon reply and leaves store and event
unchanged; `handleSub` does the same for such a remainder and for an empty one. -/
theorem bad_count_rejected (db : EventStore) (ev : bowlingEvent) (m : Message) (args : String) :
    (meRemainder args ≠ "" → badCount (meRemainder args) = true →
      handleMe db args ev m = (db, ev, NewMessage m.ChatID (pardon m.From))) ∧
    (badCount (subRemainder args) = true →
      handleSub db args ev m = (db, ev, NewMessage m.ChatID (pardon m.From))) := by
  constructor
  · intro hne hb
    have hl := length_pos_of_ne_empty _ hne
    cases ha : Atoi (meRemainder args) with
    | none => exact handleMe_error db args ev m hl ha
    | some n => exact handleMe_low db args ev m n hl ha (badCount_of_ok _ n hb ha)
  · intro hb
    by_cases hl : 0 < (subRemainder args).length
    · cases ha : Atoi (subRemainder args) with
      | none => exact handleSub_error db args ev m hl ha
      | some n => exact handleSub_low db args ev m n hl ha (badCount_of_ok _ n hb ha)
    · exact handleSub_empty db args ev m (by unfold subRemainder at hl; omega)

theorem bad_count_rejected_witness :
    (meRemainder "abc" ≠ "" ∧ badCount (meRemainder "abc") = true ∧
      handleMe [] "abc" friday ann = ([], friday, NewMessage 5 (pardon "ann"))) ∧
    (meRemainder "0" ≠ "" ∧ badCount (meRemainder "0") = true ∧
      handleMe [] "0" friday ann = ([], friday, NewMessage 5 (pardon "ann"))) ∧
    (meRemainder "-3" ≠ "" ∧ badCount (meRemainder "-3") = true ∧
      handleMe [] "-3" friday ann = ([], friday, NewMessage 5 (pardon "ann"))) ∧
    (badCount (subRemainder "abc") = true ∧
      handleSub [] "abc" friday ann = ([], friday, NewMessage 5 (pardon "ann"))) ∧
    (badCount (subRemainder "0") = true ∧
      handleSub [] "0" friday ann = ([], friday, NewMessage 5 (pardon "ann"))) :=
  ⟨⟨by decide, by decide, (bad_count_rejected [] friday ann "abc").1 (by decide) (by decide)⟩,
   ⟨by decide, by decide, (bad_count_rejected [] friday ann "0").1 (by decide) (by decide)⟩,
   ⟨by decide, by decide, (bad_count_rejected [] friday ann "-3").1 (by decide) (by decide)⟩,
   ⟨by decide, (bad_count_rejected [] friday ann "abc").2 (by decide)⟩,
   ⟨by decide, (bad_count_rejected [] friday ann "0").2 (by decide)⟩⟩

/-- C7, as stated, fails: `/sub -3` is not rejected, the `-` is trimmed and the entry of the
sender goes from 5 to 2; and `/me +`, a text that is not numeric, records plain attendance. -/
theorem sub_minus_three_accepted :
    (handleSub [] "-3" friday ann).2.1.Attendees.get? 7 = some 2 ∧
      (handleSub [] "-3" friday ann).2.1 ≠ friday ∧
      (handleSub [] "-3" friday ann).2.2.Text =
        "Ok ann, I have recorded that you're only bringing 1 person" ∧
      (handleMe [] "+" friday ann).2.1.Attendees.get? 7 = some 1 ∧
      (handleMe [] "+" friday ann).2.1 ≠ friday ∧
      (handleMe [] "+" friday ann).2.2.Text = "Awesome ann, we'll see you there" := by
  decide

theorem handleMe_overwrites_witness :
    ((2 : Nat) : Int) + 1 < 2 ^ 63 ∧
      (handleMe (repeatMe [] friday ann ["+4", "", "9"]).1 (guestText 2 true)
        (repeatMe [] friday ann ["+4", "", "9"]).2 ann).2.1.Attendees.get? ann.FromID =
          some (((2 : Nat) : Int) + 1) ∧
      countAttendees (handleMe (repeatMe [] friday ann ["+4", "", "9"]).1 (guestText 2 true)
        (repeatMe [] friday ann ["+4", "", "9"]).2 ann).2.1.Attendees = 4 :=
  ⟨by decide, (handleMe_overwrites [] friday ann ["+4", "", "9"] 2 true (by decide)).1,
    (handleMe_overwrites [] friday ann ["+4", "", "9"] 2 true (by decide)).2.2.2.2
      (by decide) (by decide)⟩

/-- C2, as stated, fails: the decimal text of the guest count `2^63` is not an `int`; the
handler answers with the pardon reply and the entry of the sender stays 5 instead of
becoming `2^63 + 1`. -/
theorem handleMe_rejects_large :
    handleMe [] (guestText (2 ^ 63) false) friday ann =
        ([], friday, NewMessage 5 (pardon "ann")) ∧
      (handleMe [] (guestText (2 ^ 63) false) friday ann).2.1.Attendees.get? 7 = some 5 ∧
      (handleMe [] (guestText (2 ^ 63) false) friday ann).2.1.Attendees.get? 7 ≠
        some (((2 ^ 63 : Nat) : Int) + 1) := by
  decide

theorem handleSub_clamps_witness :
    1 ≤ 7 ∧ ((7 : Nat) : Int) < 2 ^ 63 ∧
      (handleSub [] (reduceText 7 false) friday ann).2.1.Attendees.get? 7 = some 1 ∧
      (handleSub [] (reduceText 3 true) friday ann).2.1.Attendees.get? 7 = some 2 :=
  ⟨by decide, by decide,
    (handleSub_clamps [] friday ann 7 false (by decide) (by decide)).1,
    (handleSub_clamps [] friday ann 3 true (by decide) (by decide)).1⟩

/-- C3, as stated, fails: the decimal text of the reduction `2^63` is not an `int`; the
handler answers with the pardon reply and the entry of the sender stays 5 instead of
becoming `max(1, 5 - 2^63) = 1`. -/
theorem handleSub_rejects_large :
    handleSub [] (reduceText (2 ^ 63) false) friday ann =
        ([], friday, NewMessage 5 (pardon "ann")) ∧
      (handleSub [] (reduceText (2 ^ 63) false) friday ann).2.1.Attendees.get? 7 = some 5 ∧
      (handleSub [] (reduceText (2 ^ 63) false) friday ann).2.1.Attendees.get? 7 ≠
        some (max 1 (5 - ((2 ^ 63 : Nat) : Int))) := by
  decide

/-! ## The event bucket and the dispatcher -/

theorem EventStore.one_save (db : EventStore) (e : bowlingEvent) :
    (db.save e).one e.ID = some e := by
  simp [EventStore.save, EventStore.one, List.find?_cons]

theorem GetNextEvent_some (db : EventStore) (g : bowlingGroup) (now : Time) (ev : bowlingEvent)
    (h : GetNextEvent db g now = some ev) :
    g.NextEvent ≠ "" ∧ db.one g.NextEvent = some ev ∧ ev.ID = g.NextEvent ∧ now < ev.Time := by
  unfold GetNextEvent at h
  by_cases h0 : g.NextEvent = ""
  · simp [h0] at h
  · simp only [h0, if_false] at h
    cases ho : db.one g.NextEvent with
    | none => simp [ho] at h
    | some e =>
      simp only [ho] at h
      by_cases ha : After e.Time now = true
      · simp only [ha, if_true, Option.some.injEq] at h
        subst h
        refine ⟨h0, rfl, ?_, ?_⟩
        · have := List.find?_some ho
          simpa using this
        · simpa [After] using ha
      · simp [ha] at h

theorem GetNextEvent_of_one (db : EventStore) (g : bowlingGroup) (now : Time) (ev : bowlingEvent)
    (h0 : g.NextEvent ≠ "") (ho : db.one g.NextEvent = some ev) (ht : now < ev.Time) :
    GetNextEvent db g now = some ev := by
  unfold GetNextEvent
  simp [h0, ho, After, ht]

/-- The command `out` with a next event in place. -/
theorem handleCommand_out (env : Env) (db : EventStore) (g : bowlingGroup) (m : Message)
    (now : Time) (uuid : String) (ev : bowlingEvent) (hc : m.Command = "out")
    (hev : GetNextEvent db g now = some ev) :
    handleCommand env db g m now uuid =
      match ev.Attendees.get? m.FromID with
      | some _ =>
        (db.save { ev with Attendees := ev.Attendees.delete m.FromID }, g,
          silent (NewMessage m.ChatID ("Ok " ++ m.From ++ ", sorry you can't make it")))
      | none =>
        (db, g, silent (NewMessage m.ChatID
          ("But " ++ m.From ++ ", you weren't actually listed as coming!"))) := by
  unfold handleCommand
  rw [hev]
  have hb : EqualFoldBowling m.Command = false := by rw [hc]; decide
  simp only [hb, Bool.false_eq_true, if_false]
  unfold handleRosterCommand
  simp only [hc]
  rw [if_neg (by decide), if_neg (by decide), if_neg (by decide)]
  simp only [if_true]

/-- C8: with a next event in place, `/out` removes the entry of the sender if there is one
and leaves every other entry unchanged; a second `/out` of the same sender, while the event
is still ahead, leaves store and group unchanged and is answered with the reply that the
sender was not listed as coming. -/
theorem out_twice (env : Env) (db : EventStore) (g : bowlingGroup) (m : Message)
    (now now2 : Time) (uuid uuid2 : String) (ev : bowlingEvent) (hc : m.Command = "out")
    (hev : GetNextEvent db g now = some ev) (hfut : now2 < ev.Time) :
    (handleCommand env db g m now uuid).2.1 = g ∧
    (∃ e1, GetNextEvent (handleCommand env db g m now uuid).1 g now2 = some e1 ∧
      e1.Attendees = ev.Attendees.delete m.FromID ∧
      e1.Attendees.get? m.FromID = none ∧
      (∀ k, k ≠ m.FromID → e1.Attendees.get? k = ev.Attendees.get? k)) ∧
    handleCommand env (handleCommand env db g m now uuid).1 g m now2 uuid2 =
      ((handleCommand env db g m now uuid).1, g, silent (NewMessage m.ChatID
        ("But " ++ m.From ++ ", you weren't actually listed as coming!"))) := by
  obtain ⟨h0, ho, hid, _⟩ := GetNextEvent_some db g now ev hev
  have h1 := handleCommand_out env db g m now uuid ev hc hev
  cases hf : ev.Attendees.get? m.FromID with
  | none =>
    rw [hf] at h1
    simp only at h1
    have hev2 := GetNextEvent_of_one db g now2 ev h0 ho hfut
    have h2 := handleCommand_out env db g m now2 uuid2 ev hc hev2
    rw [hf] at h2
    simp only at h2
    rw [h1]
    refine ⟨rfl, ⟨ev, hev2, ?_, hf, fun k _ => rfl⟩, h2⟩
    exact (Roster.delete_of_get?_none _ _ hf).symm
  | some c =>
    rw [hf] at h1
    simp only at h1
    have hone : (db.save { ev with Attendees := ev.Attendees.delete m.FromID }).one g.NextEvent =
        some { ev with Attendees := ev.Attendees.delete m.FromID } := by
      rw [← hid]
      exact EventStore.one_save db { ev with Attendees := ev.Attendees.delete m.FromID }
    have hev2 := GetNextEvent_of_one _ g now2 _ h0 hone hfut
    have h2 := handleCommand_out env _ g m now2 uuid2 _ hc hev2
    have hnone : (ev.Attendees.delete m.FromID).get? m.FromID = none :=
      Roster.get?_delete_self _ _
    simp only [hnone] at h2
    rw [h1]
    refine ⟨rfl, ⟨_, hev2, rfl, hnone, ?_⟩, h2⟩
    intro k hk
    exact Roster.get?_delete_ne _ _ _ hk

theorem out_twice_witness :
    (annSays "out" "").Command = "out" ∧ GetNextEvent [friday] club 0 = some friday ∧
      Hour < friday.Time ∧
      handleCommand utc (handleCommand utc [friday] club (annSays "out" "") 0 "u").1 club
          (annSays "out" "") Hour "v" =
        ((handleCommand utc [friday] club (annSays "out" "") 0 "u").1, club,
          silent (NewMessage 5 ("But " ++ "ann" ++ ", you weren't actually listed as coming!"))) :=
  ⟨rfl, by decide, by decide,
    (out_twice utc [friday] club (annSays "out" "") 0 Hour "u" "v" friday rfl (by decide)
      (by decide)).2.2⟩

/-! ## Scheduling, continued -/

/-- C9 (amended): for a configured weekday `w` in 0..6 and two instants of the same calendar
day, whose weekday is `t`, `nextSlot` adds one and the same number `d` of days of 24 hours to
both, `d` being 0 when `t = w` and otherwise the least positive number of days with
`(t + d) mod 7 = w`: the results are `now1 + d * 24h` and `now2 + d * 24h`, they differ by
exactly `now2 - now1`, and they are the same instant only when `now1 = now2`. The result
keeps the time of day of `now`. -/
theorem nextSlot_same_day (loc : Zone) (w : Nat) (now1 now2 : Time) (hw : w < 7)
    (h : dayNumber loc now1 = dayNumber loc now2) :
    ∃ d : Nat, nextSlot loc w now1 = now1 + ((d : Int) * 24) * Hour ∧
      nextSlot loc w now2 = now2 + ((d : Int) * 24) * Hour ∧
      Weekday loc now1 = Weekday loc now2 ∧
      (Weekday loc now1 = w → d = 0) ∧
      (Weekday loc now1 ≠ w → 0 < d ∧
        ∀ k : Nat, 0 < k → (Weekday loc now1 + k) % 7 = w → d ≤ k) ∧
      d ≤ 6 ∧ (Weekday loc now1 + d) % 7 = w ∧
      nextSlot loc w now2 - nextSlot loc w now1 = now2 - now1 ∧
      (nextSlot loc w now1 = nextSlot loc w now2 ↔ now1 = now2) := by
  have hwd : Weekday loc now1 = Weekday loc now2 := by unfold Weekday; rw [h]
  have ht := Weekday_lt loc now1
  have hcast : ((nextSlotDays w (Weekday loc now1)).toNat : Int) =
      nextSlotDays w (Weekday loc now1) := by
    unfold nextSlotDays; split <;> omega
  have e1 : nextSlot loc w now1 =
      now1 + (((nextSlotDays w (Weekday loc now1)).toNat : Int) * 24) * Hour := by
    simp only [nextSlot, hcast]
  have e2 : nextSlot loc w now2 =
      now2 + (((nextSlotDays w (Weekday loc now1)).toNat : Int) * 24) * Hour := by
    have e : nextSlot loc w now2 = now2 + (nextSlotDays w (Weekday loc now2) * 24) * Hour := rfl
    rw [e, ← hwd, hcast]
  refine ⟨(nextSlotDays w (Weekday loc now1)).toNat, e1, e2, hwd, ?_, ?_, ?_, ?_, ?_, ?_⟩
  · intro h0; unfold nextSlotDays; split <;> omega
  · intro h0
    refine ⟨?_, ?_⟩
    · unfold nextSlotDays; split <;> omega
    · intro k hk hkw; unfold nextSlotDays; split <;> omega
  · unfold nextSlotDays; split <;> omega
  · unfold nextSlotDays; split <;> omega
  · rw [e1, e2]; ring
  · rw [e1, e2]
    constructor
    · intro e; linarith
    · intro e; rw [e]

theorem nextSlot_same_day_witness :
    (5 : Nat) < 7 ∧ dayNumber UTC 0 = dayNumber UTC Hour ∧
      ∃ d : Nat, nextSlot UTC 5 0 = 0 + ((d : Int) * 24) * Hour ∧
        nextSlot UTC 5 Hour = Hour + ((d : Int) * 24) * Hour ∧
        Weekday UTC 0 = Weekday UTC Hour ∧
        (Weekday UTC 0 = 5 → d = 0) ∧
        (Weekday UTC 0 ≠ 5 → 0 < d ∧
          ∀ k : Nat, 0 < k → (Weekday UTC 0 + k) % 7 = 5 → d ≤ k) ∧
        d ≤ 6 ∧ (Weekday UTC 0 + d) % 7 = 5 ∧
        nextSlot UTC 5 Hour - nextSlot UTC 5 0 = Hour - 0 ∧
        (nextSlot UTC 5 0 = nextSlot UTC 5 Hour ↔ (0 : Time) = Hour) :=
  ⟨by decide, by decide, nextSlot_same_day UTC 5 0 Hour (by decide) (by decide)⟩

/-- C9, as stated, fails: midnight and one o'clock of Thursday 1 January 1970 are instants of
one calendar day, yet for a Friday group `nextSlot` returns two instants, and the second is
one o'clock of the Friday, not the start of that day. -/
theorem nextSlot_keeps_time_of_day :
    dayNumber UTC 0 = dayNumber UTC Hour ∧ nextSlot UTC 5 0 ≠ nextSlot UTC 5 Hour ∧
      nextSlot UTC 5 0 = 24 * Hour ∧ nextSlot UTC 5 Hour = 25 * Hour := by
  decide

/-- C10 fails on the code: when the weekday of `now` is the configured weekday, `NewEvent`
schedules the event at `now` itself, and `GetNextEvent` at `now` or at any later instant
returns nil for it. -/
theorem NewEvent_same_weekday_stale (loc : Zone) (db : EventStore) (g : bowlingGroup)
    (now : Time) (uuid : String) (later : Nat) :
    (NewEvent loc db { g with Day := Weekday loc now } now uuid).1.Time = now ∧
      GetNextEvent (NewEvent loc db { g with Day := Weekday loc now } now uuid).2.2
        (NewEvent loc db { g with Day := Weekday loc now } now uuid).2.1 (now + later) = none := by
  have ht : nextSlot loc (Weekday loc now) now = now := by
    simp [nextSlot, nextSlotDays]
  constructor
  · simp [NewEvent, ht]
  · unfold GetNextEvent
    by_cases hu : uuid = ""
    · simp [NewEvent, hu]
    · simp only [NewEvent, hu, if_false, ht]
      rw [EventStore.one_save]
      simp [After]

/-- The defect behind C10 through the dispatcher: on a Thursday, in a group that bowls on
Thursdays, `/bowling` announces the event, and `/me` one hour later is answered with the
reply that there is no game. -/
theorem bowling_then_me_same_weekday :
    (handleCommand utc
        (handleCommand utc [] { club with Day := 4, NextEvent := "" } (annSays "bowling" "") 0 "e2").1
        (handleCommand utc [] { club with Day := 4, NextEvent := "" } (annSays "bowling" "") 0 "e2").2.1
        (annSays "me" "") Hour "e3").2.2.Text = "Sorry ann, there is no game in the near future" := by
  decide

/-- C6 fails on the code: in a group that bowls on Fridays, `/bowling` on a Thursday creates
the event with an empty roster, and `/me 9223372036854775807` (or `/me+9223372036854775807`)
then stores `n + 1` wrapped to the least `int`, a value below 1. -/
theorem roster_value_below_one :
    (GetNextEvent
        (runCommands utc [] { club with NextEvent := "" }
          [{ message := annSays "bowling" "", now := 0, uuid := "e2" },
           { message := annSays "me" "9223372036854775807", now := Hour, uuid := "e3" }]).1
        (runCommands utc [] { club with NextEvent := "" }
          [{ message := annSays "bowling" "", now := 0, uuid := "e2" },
           { message := annSays "me" "9223372036854775807", now := Hour, uuid := "e3" }]).2
        (2 * Hour)).map (fun e => e.Attendees) = some [(7, -9223372036854775808)] ∧
    (GetNextEvent
        (runCommands utc [] { club with NextEvent := "" }
          [{ message := annSays "bowling" "", now := 0, uuid := "e2" },
           { message := annSays "me+9223372036854775807" "", now := Hour, uuid := "e3" }]).1
        (runCommands utc [] { club with NextEvent := "" }
          [{ message := annSays "bowling" "", now := 0, uuid := "e2" },
           { message := annSays "me+9223372036854775807" "", now := Hour, uuid := "e3" }]).2
        (2 * Hour)).map (fun e => e.Attendees) = some [(7, -9223372036854775808)] ∧
    ¬ ((1 : Int) ≤ -9223372036854775808) := by
  decide

/-! ## The conversation tracker -/

theorem convoState.read_of_lookup_none {κ : Type} (c : convoState κ) (id : Int)
    (h : c.lookup id = none) : (c.read id).f = none := by
  unfold convoState.read
  rw [h]

theorem convoState.next_of_lookup_none {κ : Type} (c : convoState κ) (m : Message) (id : Int)
    (hm : m.ReplyToMessage = some id) (h : c.lookup id = none) :
    c.next m = (c.remove id, Called.nilFuncPanic) := by
  unfold convoState.next
  rw [hm]
  simp only [convoState.read_of_lookup_none c id h]

theorem convoState.lookup_remove {κ : Type} (c : convoState κ) (id : Int) :
    (c.remove id).lookup id = none := by
  unfold convoState.lookup convoState.remove
  simp only [Option.map_eq_none', List.find?_eq_none, List.mem_filter]
  intro p hp
  simpa using hp.2

theorem convoState.lookup_setNext {κ : Type} (c : convoState κ) (id : Int) (f : Option κ)
    (now : Time) : (c.setNext id f now).lookup id = some { c := now, f := f } := by
  simp [convoState.lookup, convoState.setNext, List.find?_cons]

/-- C4 fails on the code: `next` with a reply to a message that has no pending entry calls
the nil function of the zero `convoNext`, a run-time panic, instead of doing nothing. After
`setNext id f`, the first `next` of a reply to `id` calls `f` and empties the map; the
second one calls the nil function. -/
theorem next_without_entry_panics (κ : Type) (f : κ) (id : Int) (now : Time) (m : Message) :
    ((newConvoState κ).next { m with ReplyToMessage := some id }).2 = Called.nilFuncPanic ∧
      (((newConvoState κ).setNext id (some f) now).next { m with ReplyToMessage := some id }).2 =
        Called.invoked f { m with ReplyToMessage := some id } ∧
      ((((newConvoState κ).setNext id (some f) now).next { m with ReplyToMessage := some id }).1.next
        { m with ReplyToMessage := some id }).2 = Called.nilFuncPanic := by
  refine ⟨?_, ?_, ?_⟩
  · rw [convoState.next_of_lookup_none _ _ id rfl (by rfl)]
  · unfold convoState.next
    simp only [convoState.read, convoState.lookup_setNext]
  · have h1 : (((newConvoState κ).setNext id (some f) now).next
        { m with ReplyToMessage := some id }).1 =
        ((newConvoState κ).setNext id (some f) now).remove id := by
      unfold convoState.next
      simp only [convoState.read, convoState.lookup_setNext]
    rw [h1, convoState.next_of_lookup_none _ _ id rfl (convoState.lookup_remove _ id)]

theorem runTracker_append {κ : Type} (a b : List (Time × TrackerOp κ)) :
    ∀ c : convoState κ, (runTracker c (a ++ b)).1 = (runTracker (runTracker c a).1 b).1 ∧
      (runTracker c (a ++ b)).2 = (runTracker (runTracker c a).1 b).2 ++ (runTracker c a).2 := by
  induction a with
  | nil => intro c; simp [runTracker]
  | cons x rest ih =>
    intro c
    obtain ⟨now, op⟩ := x
    obtain ⟨h1, h2⟩ := ih (stepTracker c now op).1
    simp only [List.cons_append, runTracker]
    cases hs : (stepTracker c now op).2 with
    | none => exact ⟨h1, h2⟩
    | some out =>
      refine ⟨h1, ?_⟩
      show (runTracker (stepTracker c now op).1 (rest ++ b)).2 ++ [out] = _
      rw [h2, List.append_assoc]

/-- Every pending entry of the token `id` was registered at `t0`. -/
theorem step_keeps_stamp {κ : Type} (c : convoState κ) (id : Int) (t0 now : Time)
    (op : TrackerOp κ) (hop : op.touches id = false)
    (h : ∀ p ∈ c.inReplyTo, p.1 = id → p.2.c = t0) :
    ∀ p ∈ (stepTracker c now op).1.inReplyTo, p.1 = id → p.2.c = t0 := by
  cases op with
  | setNext i f =>
    have hi : i ≠ id := by simpa [TrackerOp.touches] using hop
    intro p hp hpid
    simp only [stepTracker, convoState.setNext, convoState.remove, List.mem_cons,
      List.mem_filter] at hp
    rcases hp with e | ⟨hp, _⟩
    · rw [e] at hpid; exact absurd hpid hi
    · exact h p hp hpid
  | next m =>
    intro p hp hpid
    have hsub : ∀ q ∈ (c.next m).1.inReplyTo, q ∈ c.inReplyTo := by
      intro q hq
      unfold convoState.next at hq
      cases hr : m.ReplyToMessage with
      | none => simpa [hr] using hq
      | some j =>
        simp only [hr] at hq
        have hq2 : q ∈ (c.remove j).inReplyTo := by
          cases hf : (c.read j).f <;> simpa [hf] using hq
        simp only [convoState.remove, List.mem_filter] at hq2
        exact hq2.1
    exact h p (hsub p hp) hpid
  | maintain =>
    intro p hp hpid
    simp only [stepTracker, convoState.maintain, List.mem_filter] at hp
    exact h p hp.1 hpid

theorem run_keeps_stamp {κ : Type} (id : Int) (t0 : Time) (ops : List (Time × TrackerOp κ))
    (hops : ∀ x ∈ ops, x.2.touches id = false) :
    ∀ c : convoState κ, (∀ p ∈ c.inReplyTo, p.1 = id → p.2.c = t0) →
      ∀ p ∈ (runTracker c ops).1.inReplyTo, p.1 = id → p.2.c = t0 := by
  induction ops with
  | nil => intro c h; simpa [runTracker] using h
  | cons x rest ih =>
    intro c h
    obtain ⟨now, op⟩ := x
    have hop : op.touches id = false := hops (now, op) (List.mem_cons_self _ _)
    have hrest : ∀ y ∈ rest, y.2.touches id = false :=
      fun y hy => hops y (List.mem_cons_of_mem _ hy)
    have := ih hrest (stepTracker c now op).1 (step_keeps_stamp c id t0 now op hop h)
    simp only [runTracker]
    cases hs : (stepTracker c now op).2 <;> simpa [hs] using this

theorem run_keeps_absent {κ : Type} (id : Int) (ops : List (Time × TrackerOp κ))
    (hops : ∀ x ∈ ops, x.2.touches id = false) (c : convoState κ)
    (h : ∀ p ∈ c.inReplyTo, p.1 ≠ id) : ∀ p ∈ (runTracker c ops).1.inReplyTo, p.1 ≠ id := by
  intro p hp hpid
  have h1 : ∀ q ∈ c.inReplyTo, q.1 = id → q.2.c = 0 := fun q hq e => absurd e (h q hq)
  have h2 : ∀ q ∈ c.inReplyTo, q.1 = id → q.2.c = 1 := fun q hq e => absurd e (h q hq)
  have e1 := run_keeps_stamp id 0 ops hops c h1 p hp hpid
  have e2 := run_keeps_stamp id 1 ops hops c h2 p hp hpid
  rw [e1] at e2
  exact absurd e2 (by decide)

theorem lookup_none_of_absent {κ : Type} (c : convoState κ) (id : Int)
    (h : ∀ p ∈ c.inReplyTo, p.1 ≠ id) : c.lookup id = none := by
  unfold convoState.lookup
  simp only [Option.map_eq_none', List.find?_eq_none]
  intro p hp
  simpa using h p hp

theorem maintain_drops_old {κ : Type} (c : convoState κ) (id : Int) (t0 s : Int)
    (hs : t0 + 10 * Minute < s) (h : ∀ p ∈ c.inReplyTo, p.1 = id → p.2.c = t0) :
    ∀ p ∈ (c.maintain s).inReplyTo, p.1 ≠ id := by
  intro p hp hpid
  simp only [convoState.maintain, List.mem_filter, Before, Bool.not_eq_true',
    decide_eq_false_iff_not] at hp
  have := h p hp.1 hpid
  rw [this] at hp
  have hp2 : ¬ (t0 < s + -10 * Minute) := hp.2
  unfold Minute at hs hp2
  omega
theorem runTracker_cons_state {κ : Type} (c : convoState κ) (now : Time) (op : TrackerOp κ)
    (rest : List (Time × TrackerOp κ)) :
    (runTracker c ((now, op) :: rest)).1 = (runTracker (stepTracker c now op).1 rest).1 := by
  simp only [runTracker]
  cases (stepTracker c now op).2 <;> rfl

/-- C5 (amended): a token registered at `t0` and afterwards neither replied to nor registered
again is gone once a sweep has run at an instant `s > t0 + TTL` (10 minutes): a resolve of a
reply to it after that sweep, whatever else happened to other tokens in between, does not
call a registered continuation. Only a sweep expires an entry. -/
theorem swept_token_not_invoked {κ : Type} (c0 : convoState κ) (id : Int) (f : Option κ)
    (t0 s t : Int) (mid later : List (Time × TrackerOp κ)) (m : Message)
    (hm : m.ReplyToMessage = some id)
    (hmid : ∀ x ∈ mid, x.2.touches id = false)
    (hlater : ∀ x ∈ later, x.2.touches id = false)
    (hs : t0 + 10 * Minute < s) :
    ∀ (g : κ) (m1 : Message),
      (runTracker c0 ((((t0, TrackerOp.setNext id f) :: mid) ++
        ((s, TrackerOp.maintain) :: later)) ++ [(t, TrackerOp.next m)])).2.head? ≠
          some (Called.invoked g m1) := by
  intro g m1
  have hreg : ∀ p ∈ (stepTracker c0 t0 (TrackerOp.setNext id f)).1.inReplyTo,
      p.1 = id → p.2.c = t0 := by
    intro p hp hpid
    simp only [stepTracker, convoState.setNext, convoState.remove, List.mem_cons,
      List.mem_filter] at hp
    rcases hp with e | ⟨_, hne⟩
    · rw [e]
    · exact absurd hpid (by simpa using hne)
  have h1 := run_keeps_stamp id t0 mid hmid _ hreg
  rw [← runTracker_cons_state] at h1
  have h2 := maintain_drops_old _ id t0 s hs h1
  have h3 := run_keeps_absent id later hlater _ h2
  have e3 : (runTracker (runTracker c0 ((t0, TrackerOp.setNext id f) :: mid)).1
      ((s, TrackerOp.maintain) :: later)).1 =
      (runTracker ((runTracker c0 ((t0, TrackerOp.setNext id f) :: mid)).1.maintain s) later).1 :=
    runTracker_cons_state _ s TrackerOp.maintain later
  rw [← e3, ← (runTracker_append _ _ c0).1] at h3
  have h4 := lookup_none_of_absent _ id h3
  have e4 : ∀ c : convoState κ, (runTracker c [(t, TrackerOp.next m)]).2 = [(c.next m).2] := by
    intro c; simp [runTracker, stepTracker]
  rw [(runTracker_append _ _ c0).2, e4, List.singleton_append, List.head?_cons,
    convoState.next_of_lookup_none _ m id hm h4]
  simp

theorem swept_token_not_invoked_witness :
    (replyTo 42).ReplyToMessage = some 42 ∧
      (∀ x ∈ [((6 * Minute : Int), TrackerOp.setNext 43 (some Continuation.askForTime))],
        x.2.touches 42 = false) ∧
      (∀ x ∈ ([] : List (Time × TrackerOp Continuation)), x.2.touches 42 = false) ∧
      (Minute : Int) + 10 * Minute < 15 * Minute ∧
      (runTracker (newConvoState Continuation)
        ((((Minute, TrackerOp.setNext 42 (some Continuation.doneAsking)) ::
            [((6 * Minute : Int), TrackerOp.setNext 43 (some Continuation.askForTime))]) ++
          ((15 * Minute, TrackerOp.maintain) :: [])) ++
            [(16 * Minute, TrackerOp.next (replyTo 42))])).2.head? ≠
        some (Called.invoked Continuation.doneAsking (replyTo 42)) :=
  ⟨rfl, by decide, by decide, by decide,
    swept_token_not_invoked (newConvoState Continuation) 42 (some Continuation.doneAsking)
      Minute (15 * Minute) (16 * Minute)
      [((6 * Minute : Int), TrackerOp.setNext 43 (some Continuation.askForTime))] []
      (replyTo 42) rfl (by decide) (by decide) (by decide)
      Continuation.doneAsking (replyTo 42)⟩

/-- C5, as stated, fails: a token registered one minute after a sweep survives the sweeps of
minutes 5 and 10 (its age is below the TTL then); a reply at minute 14, more than TTL after
the registration, finds the entry and the continuation is called. -/
theorem stale_token_still_invoked :
    Minute + 10 * Minute < 14 * Minute ∧
      (runTracker (newConvoState Continuation)
        [(Minute, TrackerOp.setNext 42 (some Continuation.doneAsking)),
         (5 * Minute, TrackerOp.maintain),
         (10 * Minute, TrackerOp.maintain),
         (14 * Minute, TrackerOp.next (replyTo 42))]).2 =
        [Called.invoked Continuation.doneAsking (replyTo 42)] := by
  decide

/-! ## Counts beyond the range of `int` -/

/-- The text of a guest count of `2^63` or more is answered with the pardon reply by
`handleMe`, store and event unchanged. -/
theorem handleMe_beyond_int (db : EventStore) (ev : bowlingEvent) (m : Message) (g : Nat)
    (plus : Bool) (hg : (2 : Int) ^ 63 ≤ (g : Int)) :
    handleMe db (guestText g plus) ev m = (db, ev, NewMessage m.ChatID (pardon m.From)) := by
  have hpos : 0 < g := by
    rcases Nat.eq_zero_or_pos g with h0 | h0
    · rw [h0] at hg; exact absurd hg (by decide)
    · exact h0
  have ht := guestText_trimmed g plus hpos
  have hl : 0 < (TrimSpace ( TrimPrefix (TrimSpace (guestText g plus)) "+")).length := by
    rw [ht]; exact text_length_pos g
  have ha : Atoi (TrimSpace ( TrimPrefix (TrimSpace (guestText g plus)) "+")) = none := by
    rw [ht]; exact Atoi_text_big g hg
  exact handleMe_error db _ ev m hl ha

/-- The text of a reduction of `2^63` or more is answered with the pardon reply by
`handleSub`, store and event unchanged. -/
theorem handleSub_beyond_int (db : EventStore) (ev : bowlingEvent) (m : Message) (n : Nat)
    (dash : Bool) (hn : (2 : Int) ^ 63 ≤ (n : Int)) :
    handleSub db (reduceText n dash) ev m = (db, ev, NewMessage m.ChatID (pardon m.From)) := by
  have ht := reduceText_trimmed n dash
  have hl : 0 < (TrimSpace ( TrimPrefix (TrimSpace (reduceText n dash)) "-")).length := by
    rw [ht]; exact text_length_pos n
  have ha : Atoi (TrimSpace ( TrimPrefix (TrimSpace (reduceText n dash)) "-")) = none := by
    rw [ht]; exact Atoi_text_big n hn
  exact handleSub_error db _ ev m hl ha

/-! ## Entries the sweep keeps -/

/-- The entry of `id` found in the map is registered at `t0` with the continuation `f`. -/
theorem step_keeps_entry {κ : Type} (c : convoState κ) (id : Int) (t0 now : Int) (f : Option κ)
    (op : TrackerOp κ) (hop : op.touches id = false)
    (hnow : op = TrackerOp.maintain → now ≤ t0 + 10 * Minute)
    (h : c.lookup id = some { c := t0, f := f }) :
    (stepTracker c now op).1.lookup id = some { c := t0, f := f } := by
  have key : ∀ (q : Int × convoNext κ → Bool) (l : List (Int × convoNext κ)),
      (∀ p ∈ l, p.1 = id → p.2 = { c := t0, f := f } → q p = true) →
      (l.find? (fun p => decide (p.1 = id))).map Prod.snd = some { c := t0, f := f } →
      ((l.filter q).find? (fun p => decide (p.1 = id))).map Prod.snd =
        some { c := t0, f := f } := by
    intro q l
    induction l with
    | nil => intro _ h0; simp at h0
    | cons a rest ih =>
      intro hq h0
      by_cases ha : a.1 = id
      · have h1 : a.2 = { c := t0, f := f } := by
          simpa [List.find?_cons, ha] using h0
        have h2 : q a = true := hq a (List.mem_cons_self _ _) ha h1
        simp [List.filter_cons, h2, List.find?_cons, ha, h1]
      · have h1 : (rest.find? (fun p => decide (p.1 = id))).map Prod.snd =
            some { c := t0, f := f } := by
          simpa [List.find?_cons, ha] using h0
        have h2 := ih (fun p hp => hq p (List.mem_cons_of_mem _ hp)) h1
        by_cases hqa : q a = true
        · simpa [List.filter_cons, hqa, List.find?_cons, ha] using h2
        · simpa [List.filter_cons, hqa] using h2
  cases op with
  | setNext i g =>
    have hi : i ≠ id := by simpa [TrackerOp.touches] using hop
    have h2 := key (fun p => decide (p.1 ≠ i)) c.inReplyTo
      (fun p _ hp _ => by simpa [hp] using Ne.symm hi) h
    simpa [stepTracker, convoState.setNext, convoState.remove, convoState.lookup,
      List.find?_cons, hi] using h2
  | next m =>
    cases hr : m.ReplyToMessage with
    | none => simpa [stepTracker, convoState.next, hr] using h
    | some j =>
      have hj : j ≠ id := by
        intro e
        simp [TrackerOp.touches, hr, e] at hop
      have h2 := key (fun p => decide (p.1 ≠ j)) c.inReplyTo
        (fun p _ hp _ => by simpa [hp] using Ne.symm hj) h
      have h3 : (c.next m).1 = c.remove j := by
        unfold convoState.next
        rw [hr]
        cases hf : (c.read j).f <;> simp [hf]
      simpa [stepTracker, h3, convoState.remove, convoState.lookup] using h2
  | maintain =>
    have hle : now ≤ t0 + 10 * Minute := hnow rfl
    have h2 := key (fun p => !Before p.2.c (now + (-10) * Minute)) c.inReplyTo
      (fun p _ _ hp => by
        show (!Before p.2.c (now + (-10) * Minute)) = true
        rw [hp]
        have hlt : ¬ (t0 < now + (-10) * Minute) := by
          unfold Minute at hle ⊢
          omega
        simpa [Before] using hlt) h
    simpa [stepTracker, convoState.maintain, convoState.lookup] using h2

theorem run_keeps_entry {κ : Type} (id : Int) (t0 : Int) (f : Option κ)
    (ops : List (Time × TrackerOp κ))
    (hops : ∀ x ∈ ops, x.2.touches id = false ∧
      (x.2 = TrackerOp.maintain → x.1 ≤ t0 + 10 * Minute)) :
    ∀ c : convoState κ, c.lookup id = some { c := t0, f := f } →
      (runTracker c ops).1.lookup id = some { c := t0, f := f } := by
  induction ops with
  | nil => intro c h; simpa [runTracker] using h
  | cons x rest ih =>
    intro c h
    obtain ⟨now, op⟩ := x
    obtain ⟨h1, h2⟩ := hops (now, op) (List.mem_cons_self _ _)
    rw [runTracker_cons_state]
    exact ih (fun y hy => hops y (List.mem_cons_of_mem _ hy)) _
      (step_keeps_entry c id t0 now f op h1 h2 h)

/-- Without a sweep later than `t0 + TTL`, a token registered at `t0` and neither replied to
nor registered again stays pending: a reply to it, at whatever instant, is handed to the
registered continuation. -/
theorem unswept_token_invoked {κ : Type} (c0 : convoState κ) (id : Int) (f : κ)
    (t0 t : Int) (mid : List (Time × TrackerOp κ)) (m : Message)
    (hm : m.ReplyToMessage = some id)
    (hmid : ∀ x ∈ mid, x.2.touches id = false ∧
      (x.2 = TrackerOp.maintain → x.1 ≤ t0 + 10 * Minute)) :
    (runTracker c0 (((t0, TrackerOp.setNext id (some f)) :: mid) ++
      [(t, TrackerOp.next m)])).2.head? = some (Called.invoked f m) := by
  have h1 := run_keeps_entry id t0 (some f) mid hmid _
    (convoState.lookup_setNext c0 id (some f) t0)
  have e1 : (stepTracker c0 t0 (TrackerOp.setNext id (some f))).1 =
      c0.setNext id (some f) t0 := rfl
  rw [← e1, ← runTracker_cons_state] at h1
  have e4 : ∀ c : convoState κ, (runTracker c [(t, TrackerOp.next m)]).2 = [(c.next m).2] := by
    intro c; simp [runTracker, stepTracker]
  rw [(runTracker_append _ _ c0).2, e4, List.singleton_append, List.head?_cons]
  have e5 : ∀ c : convoState κ, c.lookup id = some { c := t0, f := some f } →
      (c.next m).2 = Called.invoked f m := by
    intro c hc
    unfold convoState.next
    rw [hm]
    simp only [convoState.read, hc]
  rw [e5 _ h1]

end Bowlbot
